import Mathlib

/-!
Verification development for the LiteNode template-expression engine (STE):
a shallow embedding of the tokenizer → parser → evaluator pipeline of
`src/core/STE`, together with models of the path-resolution facade and the
raw-HTML marker restore pass, and theorems checking the engine's
specification claims against this embedding.

Modelling conventions:
* JS values are modelled by `JsValue`; numbers are modelled as integers
  (every claim under scrutiny only involves integer-valued numbers), and
  object property tables as insertion-ordered association lists.
* Stateful JS code becomes explicit state passing (`EvalState`), and
  thrown exceptions become `Except String`.
* The evaluator's `Promise.all(...map(...))` sibling evaluation is modelled
  twice: the main evaluator below evaluates siblings sequentially
  (left-to-right, one after the other), and a second, coroutine-based
  model (`Co`) later in the file reproduces the actual JavaScript
  async-function semantics of `Promise.all` — every sibling runs
  synchronously up to its first `await` before any sibling's post-`await`
  continuation runs, and a rejection settles the composite eagerly, while
  suspended siblings still hold whatever state they have pushed.  Claims
  that are insensitive to the interleaving are settled against the
  sequential model; the claims about the sibling ordering and about its
  exceptional path are settled against the coroutine model.
-/

namespace LiteNode

/-- JS runtime values, as used by the STE evaluator.  Numbers are modelled
as integers; objects are insertion-ordered association lists (matching the
iteration order of `Object.entries` for plain string keys). -/
inductive JsValue where
  | undef
  | null
  | bool (b : Bool)
  | num (n : Int)
  | str (s : String)
  | arr (elems : List JsValue)
  | obj (props : List (String × JsValue))

/-- `v.isUndef` models `v === undefined`. -/
@[simp] def JsValue.isUndef : JsValue → Bool
  | .undef => true
  | _ => false

/-- JS truthiness (`Boolean(v)`). -/
@[simp] def jsTruthy : JsValue → Bool
  | .undef => false
  | .null => false
  | .bool b => b
  | .num n => n ≠ 0
  | .str s => s ≠ ""
  | .arr _ => true
  | .obj _ => true

mutual

/-- `String(v)` / string coercion used by `result += v`.  Arrays stringify
by joining their elements with `","`, rendering `null`/`undefined`
elements as the empty string, exactly as `Array.prototype.toString`. -/
@[simp] def jsToString : JsValue → String
  | .undef => "undefined"
  | .null => "null"
  | .bool true => "true"
  | .bool false => "false"
  | .num n => toString n
  | .str s => s
  | .arr l => String.intercalate "," (jsToStringElems l)
  | .obj _ => "[object Object]"

/-- Element-wise stringification used when an array is coerced to a string
(`Array.prototype.join`): `null` and `undefined` become `""`. -/
@[simp] def jsToStringElems : List JsValue → List String
  | [] => []
  | .undef :: rest => "" :: jsToStringElems rest
  | .null :: rest => "" :: jsToStringElems rest
  | v :: rest => jsToString v :: jsToStringElems rest

end

/-- `Array.prototype.join` with a separator, as used by
`bodyResults.join("")`: `null`/`undefined` elements become `""`. -/
@[simp] def jsJoin (l : List JsValue) (sep : String) : String :=
  String.intercalate sep (jsToStringElems l)

/-- Does the character list start with `pat`? -/
@[simp] def charsStartsWith : List Char → List Char → Bool
  | _, [] => true
  | [], _ :: _ => false
  | c :: cs, p :: ps => c == p && charsStartsWith cs ps

/-- Does the character list contain `pat` as a contiguous run? -/
@[simp] def charsContains (pat : List Char) : List Char → Bool
  | [] => charsStartsWith [] pat
  | c :: rest => charsStartsWith (c :: rest) pat || charsContains pat rest

/-- `s.includes(pat)` on strings. -/
@[simp] def strContains (s pat : String) : Bool :=
  charsContains pat.data s.data

/-- `s.startsWith(pre)` (structural, so concrete instances reduce). -/
@[simp] def jsStartsWith (s pre : String) : Bool :=
  charsStartsWith s.data pre.data

/-- Replace the first occurrence of `pat` (leaving the rest untouched),
the semantics of JavaScript `String.prototype.replace` with a string
pattern.  An absent pattern leaves the list unchanged. -/
@[simp] def replaceFirstChars (pat rep : List Char) : List Char → List Char
  | [] => if charsStartsWith [] pat then rep else []
  | c :: rest =>
      if charsStartsWith (c :: rest) pat then rep ++ (c :: rest).drop pat.length
      else c :: replaceFirstChars pat rep rest

/-- JavaScript `s.replace(pat, rep)` with a plain-string pattern: only the
first occurrence is replaced. -/
@[simp] def jsReplaceFirst (s pat rep : String) : String :=
  ⟨replaceFirstChars pat.data rep.data s.data⟩

/-- Assoc-list update with JS object-assignment (and `Map.set`)
semantics: an existing key keeps its position and gets the new value, a
new key is appended. -/
@[simp] def setKey {α : Type} : List (String × α) → String → α → List (String × α)
  | [], k, v => [(k, v)]
  | (k', v') :: rest, k, v =>
      if k' = k then (k', v) :: rest else (k', v') :: setKey rest k v

/-- Property read `o[k]` for the value forms the engine manipulates.
Plain objects look the key up in their table; arrays expose `length` and
numeric indices; strings expose `length` and per-character indexing.
Prototype-inherited members (e.g. array methods) are not modelled — no
template under scrutiny accesses them. -/
@[simp] def jsMemberGet : JsValue → String → JsValue
  | .obj props, k => ((props.lookup k).getD .undef)
  | .arr l, k =>
      if k = "length" then .num l.length
      else match k.toNat? with
        | some i => (l.getD i .undef)
        | none => .undef
  | .str s, k =>
      if k = "length" then .num s.length
      else match k.toNat? with
        | some i => match s.data.get? i with
            | some c => .str (String.mk [c])
            | none => .undef
        | none => .undef
  | _, _ => (.undef)

/-- `k in o` for the modelled value forms (own properties only). -/
@[simp] def jsHasProp : JsValue → String → Bool
  | .obj props, k => (props.lookup k).isSome
  | .arr l, k =>
      k == "length" || (match k.toNat? with
        | some i => decide (i < l.length)
        | none => false)
  | _, _ => false

/-- `typeof v === "object" && v` — the guard the evaluator uses before
`in`-style lookups (`null` is excluded by the truthiness conjunct). -/
@[simp] def jsIsObjecty : JsValue → Bool
  | .obj _ => true
  | .arr _ => true
  | _ => false

/-- Split on `'.'` (JavaScript `name.split(".")`): `""` gives `[""]`,
separators at the ends give empty segments. -/
@[simp] def splitDotChars (cur : List Char) : List Char → List String
  | [] => [⟨cur⟩]
  | c :: rest =>
      if c = '.' then ⟨cur⟩ :: splitDotChars [] rest
      else splitDotChars (cur ++ [c]) rest

/-- `name.split(".")`. -/
@[simp] def splitOnDot (s : String) : List String :=
  splitDotChars [] s.data

/-! ## Tokens -/

/-- `TokenTypes.js` (token-type enumeration; referenced from the
tokenizer and parser — note `AT_KEY` exists for the parser but no
tokenizer path produces it). -/
inductive TokType where
  | STRING | NUMBER | IDENTIFIER | TRUE | FALSE | THIS
  | DOUBLE_BRACE_OPEN | DOUBLE_BRACE_CLOSE | LBRACE | RBRACE
  | LPAREN | RPAREN | LBRACKET | RBRACKET | DOT | COMMA
  | PLUS | MINUS | MULTIPLY | DIVIDE | MODULO | POWER
  | AND | OR | PIPE_FILTER | EQUAL | STRICT_EQUAL | NOT_EQUAL | STRICT_NOT_EQUAL | NOT
  | GREATER | GREATER_EQUAL | LESS | LESS_EQUAL
  | QUESTION | COLON
  | TAG_SET | TAG_CONDITIONAL | TAG_EACH | TAG_EACH_CLOSE | TAG_CONDITIONAL_CLOSE | TAG_INCLUDE
  | RAW_HTML | AT_INDEX | AT_KEY | EOFT
  deriving DecidableEq, Repr

/-- A token's `literal` slot (`null`, a string, or a number in the
source; numbers are modelled as integers — decimal literals are outside
the modelled value domain and no claim involves them). -/
inductive TokLit where
  | nullL
  | strL (s : String)
  | numL (n : Int)
  deriving DecidableEq, Repr

/-- `Token.js`: `{type, lexeme, literal, position}`. -/
structure Token where
  type : TokType
  lexeme : String
  lit : TokLit
  position : Nat
  deriving DecidableEq, Repr

/-! ## AST and evaluator state

AST nodes as produced by `src/core/STE/parser` (`Parser.js`,
`BaseParser.js`).  Scope of the model: `set` is modelled in its
plain-name form (`propertyChain: null`) — no claim involves a property
chain.  `keyRef` ("key_ref") is included: the statement parser can emit
it, and the evaluator's dispatch has no case for it.  `includeNode`
("include") is parsed faithfully; evaluating one needs the file-loading
facade and is outside the evaluator model (its path type guard is
modelled separately). -/
inductive Node where
  | literal (value : JsValue)
  | var (name : String)
  | expression (expr : Node)
  | rawHtml (name : String)
  | grouping (expr : Node)
  | arrayLit (elements : List Node)
  | objectLit (properties : List (String × Node))
  | property (obj : Node) (prop : String)
  | computedProperty (obj : Node) (prop : Node)
  | filter (expr : Node) (name : String) (args : List Node)
  | set (name : String) (value : Node)
  | each (eachType : String) (iterable : Node) (body : List Node)
  | indexRef
  | thisRef
  | keyRef
  | conditional (conditionType : String) (condition : Node) (body : List Node)
      (alternates : List (String × Option Node × List Node))
  | unary (operator : TokType) (right : Node)
  | binary (operator : TokType) (left : Node) (right : Node)
  | logical (operator : TokType) (left : Node) (right : Node)
  | comparison (operator : TokType) (left : Node) (right : Node)
  | ternary (condition : Node) (trueExpr : Node) (falseExpr : Node)
  | includeNode (path : Node)
  | nullNode
  | template (body : List Node)

/-- A frame of the evaluator's `contextStack`.  The bottom frame is the
`globalData` object itself (`contextStack = [this.globalData]` in
`EvaluatorState`), which aliases later `#set` mutations; pushed frames
are loop items. -/
inductive Frame where
  | globalRef
  | item (v : JsValue)

/-- `EvaluatorState` (src/core/STE/evaluator/EvaluatorState.js) plus the
template engine's `htmlVars` map (the evaluator reaches it through
`state.templateEngine`).  Stacks are modelled head-as-top.  `nextMarkerId`
is a deterministic stand-in for the `Math.random()`-based marker minting
(claims never depend on the marker text, only on its identity). -/
structure EvalState where
  globalData : List (String × JsValue)
  contextStack : List Frame
  indexStack : List Int
  keyStack : List String
  htmlVars : List (String × String × JsValue)
  nextMarkerId : Nat

/-- `EvaluatorState.currentContext`: top of the context stack. -/
@[simp] def EvalState.currentContext (st : EvalState) : JsValue :=
  match st.contextStack.head? with
  | some .globalRef => .obj st.globalData
  | some (.item v) => v
  | none => (.undef)

/-- `EvaluatorState.currentIndex`: top of the index stack (undefined when
the stack is empty). -/
@[simp] def EvalState.currentIndexVal (st : EvalState) : JsValue :=
  match st.indexStack.head? with
  | some i => .num i
  | none => (.undef)

/-- Fresh evaluator state for a data context (normalizeData of a plain
object is a shallow copy; the context stack starts as `[globalData]`). -/
@[simp] def initState (data : List (String × JsValue)) : EvalState :=
  { globalData := data, contextStack := [.globalRef], indexStack := [],
    keyStack := [], htmlVars := [], nextMarkerId := 0 }

/-- The dotted-path walk used by `BaseEvaluator.resolveVariable`: descend
one `part` at a time while the current value is a non-null object that
owns the part. -/
@[simp] def walkPath : JsValue → List String → Option JsValue
  | v, [] => some v
  | v, part :: rest =>
      if jsIsObjecty v && jsHasProp v part then walkPath (jsMemberGet v part) rest
      else none

/-- `BaseEvaluator.resolveVariable` (builtInFilters.js aggregate, lines
753–803): check the whole name as a key of the current context, then of
global data; for dot-free names fall back to plain property access on
context then global data; for dotted names walk the path through context
then global data; otherwise `undefined`. -/
@[simp] def resolveVariable (st : EvalState) (name : String) : JsValue :=
  let ctx := st.currentContext
  if jsIsObjecty ctx && jsHasProp ctx name then jsMemberGet ctx name
  else if (st.globalData.lookup name).isSome then (st.globalData.lookup name).getD .undef
  else if !(strContains name ".") then
    let contextValue := jsMemberGet ctx name
    if !contextValue.isUndef then contextValue
    else
      let globalValue := (st.globalData.lookup name).getD .undef
      if !globalValue.isUndef then globalValue
      else .undef
  else
    match (if jsIsObjecty ctx then walkPath ctx (splitOnDot name) else none) with
    | some v => v
    | none =>
        match walkPath (.obj st.globalData) (splitOnDot name) with
        | some v => v
        | none => (.undef)

/-- `ExpressionEvaluator.evaluateVariable`: resolve the name; `html_`
names short-circuit to the raw stored value when the engine's `htmlVars`
map has an entry; unresolved (`undefined`) values become `""`. -/
@[simp] def evaluateVariable (st : EvalState) (name : String) : JsValue :=
  let value := resolveVariable st name
  if jsStartsWith name "html_" then
    match st.htmlVars.lookup name with
    | some (_, v) => v
    | none => if value.isUndef then .str "" else value
  else if value.isUndef then .str "" else value

/-- `typeof v`, for filter error messages. -/
@[simp] def jsTypeofName : JsValue → String
  | .undef => "undefined"
  | .null => "object"
  | .bool _ => "boolean"
  | .num _ => "number"
  | .str _ => "string"
  | .arr _ => "object"
  | .obj _ => "object"

/-- `v === true`. -/
@[simp] def isTrueV : JsValue → Bool
  | .bool true => true
  | _ => false

/-- `v === ""`. -/
@[simp] def isEmptyStr : JsValue → Bool
  | .str "" => true
  | _ => false

/-- Modelled subset of the built-in filter registry
(`src/core/STE/evaluator/utils/builtInFilters.js`): `uppercase` and
`lowercase`, faithful to their type-check-then-transform bodies.  Every
other name (in particular a name absent from the real registry as well)
looks up to `none`, which the filter evaluator turns into the
`Unknown filter` error. -/
@[simp] def filtersLookup (name : String) :
    Option (JsValue → List JsValue → Except String JsValue) :=
  if name = "uppercase" then
    some (fun value _ =>
      match value with
      | .str s => .ok (.str s.toUpper)
      | v => .error ("uppercase filter expects a string, but got " ++ jsTypeofName v))
  else if name = "lowercase" then
    some (fun value _ =>
      match value with
      | .str s => .ok (.str s.toLower)
      | v => .error ("lowercase filter expects a string, but got " ++ jsTypeofName v))
  else none

/-- `ExpressionEvaluator.evaluateRawHtml`: strip the leading `#` from the
node name, read the marker from global data, and fail unless it is truthy
or the empty string. -/
@[simp] def evaluateRawHtmlStr (st : EvalState) (name : String) : Except String JsValue :=
  let htmlVarName := jsReplaceFirst name "#" ""
  let marker := (st.globalData.lookup htmlVarName).getD .undef
  if !(jsTruthy marker) && !(isEmptyStr marker) then
    .error ("HTML variable " ++ htmlVarName ++ " not found")
  else .ok marker

/-- The three `finally`-block pops at the end of an `each` iteration
(`StatementEvaluator.evaluateEach`). -/
@[simp] def popFrames (st : EvalState) : EvalState :=
  { st with contextStack := st.contextStack.tail,
            indexStack := st.indexStack.tail,
            keyStack := st.keyStack.tail }

/-- The three pushes at the start of an `each` iteration. -/
@[simp] def pushFrames (st : EvalState) (item : JsValue) (index : Int) (key : String) : EvalState :=
  { st with contextStack := .item item :: st.contextStack,
            indexStack := index :: st.indexStack,
            keyStack := key :: st.keyStack }

/-- The state-update half of `StatementEvaluator.evaluateSet` (plain-name
form), shared between the sequential and the coroutine evaluators:
`html_`-prefixed names store `(marker, value)` in the engine's `htmlVars`
map (minting a fresh marker unless one exists) and put the marker in
global data; other names assign the value into global data. -/
@[simp] def setAssign (st : EvalState) (name : String) (value : JsValue) : EvalState :=
  if jsStartsWith name "html_" then
    let mk := match st.htmlVars.lookup name with
      | some (m, _) => (m, st)
      | none => ("__HTML_" ++ toString st.nextMarkerId ++ "__",
                 { st with nextMarkerId := st.nextMarkerId + 1 })
    { mk.2 with htmlVars := setKey mk.2.htmlVars name (mk.1, value),
                globalData := setKey mk.2.globalData name (.str mk.1) }
  else
    { st with globalData := setKey st.globalData name value }

/-- `BaseEvaluator.evaluateBinaryOp`.  Modelling boundary: JS numbers are
doubles with implicit coercions; this model covers integer arithmetic and
string concatenation (the combinations templates in the claims could
produce) and reports any coercion-requiring combination as an explicit
modelling-boundary error — no claim exercises those combinations. -/
@[simp] def evaluateBinaryOp (op : TokType) (l r : JsValue) : Except String JsValue :=
  match op, l, r with
  | .PLUS, .num a, .num b => .ok (.num (a + b))
  | .PLUS, .str a, b => .ok (.str (a ++ jsToString b))
  | .PLUS, a, .str b => .ok (.str (jsToString a ++ b))
  | .MINUS, .num a, .num b => .ok (.num (a - b))
  | .MULTIPLY, .num a, .num b => .ok (.num (a * b))
  | .DIVIDE, .num a, .num b =>
      if b ≠ 0 ∧ b ∣ a then .ok (.num (Int.tdiv a b))
      else .error "non-integer division outside the modelled numeric domain"
  | .MODULO, .num a, .num b =>
      if b ≠ 0 then .ok (.num (Int.tmod a b))
      else .error "modulo by zero outside the modelled numeric domain"
  | .POWER, .num a, .num b =>
      if 0 ≤ b then .ok (.num (a ^ b.toNat))
      else .error "negative exponent outside the modelled numeric domain"
  | .PLUS, _, _ | .MINUS, _, _ | .MULTIPLY, _, _ | .DIVIDE, _, _
  | .MODULO, _, _ | .POWER, _, _ =>
      .error "operand coercion outside the modelled value domain"
  | _, _, _ => .error ("Unknown binary operator: " ++ toString (repr op))

/-- `BaseEvaluator.evaluateComparisonOp`.  Same modelling boundary:
number/number and string/string comparisons are covered; `==`/`!=` also
cover the `null`/`undefined` pair and same-type primitives; `===` on
objects is reference identity in JS and outside this value model. -/
@[simp] def evaluateComparisonOp (op : TokType) (l r : JsValue) : Except String JsValue :=
  match op, l, r with
  | .GREATER, .num a, .num b => .ok (.bool (a > b))
  | .GREATER, .str a, .str b => .ok (.bool (b < a))
  | .GREATER_EQUAL, .num a, .num b => .ok (.bool (a ≥ b))
  | .GREATER_EQUAL, .str a, .str b => .ok (.bool (¬ a < b))
  | .LESS, .num a, .num b => .ok (.bool (a < b))
  | .LESS, .str a, .str b => .ok (.bool (a < b))
  | .LESS_EQUAL, .num a, .num b => .ok (.bool (a ≤ b))
  | .LESS_EQUAL, .str a, .str b => .ok (.bool (¬ b < a))
  | .EQUAL, .num a, .num b => .ok (.bool (a = b))
  | .EQUAL, .str a, .str b => .ok (.bool (a = b))
  | .EQUAL, .bool a, .bool b => .ok (.bool (a = b))
  | .EQUAL, .null, .null | .EQUAL, .null, .undef
  | .EQUAL, .undef, .null | .EQUAL, .undef, .undef => .ok (.bool true)
  | .NOT_EQUAL, .num a, .num b => .ok (.bool (a ≠ b))
  | .NOT_EQUAL, .str a, .str b => .ok (.bool (a ≠ b))
  | .NOT_EQUAL, .bool a, .bool b => .ok (.bool (a ≠ b))
  | .STRICT_EQUAL, .num a, .num b => .ok (.bool (a = b))
  | .STRICT_EQUAL, .str a, .str b => .ok (.bool (a = b))
  | .STRICT_EQUAL, .bool a, .bool b => .ok (.bool (a = b))
  | .STRICT_EQUAL, .null, .null | .STRICT_EQUAL, .undef, .undef => .ok (.bool true)
  | .STRICT_EQUAL, .null, .undef | .STRICT_EQUAL, .undef, .null => .ok (.bool false)
  | .STRICT_NOT_EQUAL, .num a, .num b => .ok (.bool (a ≠ b))
  | .STRICT_NOT_EQUAL, .str a, .str b => .ok (.bool (a ≠ b))
  | .STRICT_NOT_EQUAL, .bool a, .bool b => .ok (.bool (a ≠ b))
  | .GREATER, _, _ | .GREATER_EQUAL, _, _ | .LESS, _, _ | .LESS_EQUAL, _, _
  | .EQUAL, _, _ | .NOT_EQUAL, _, _ | .STRICT_EQUAL, _, _ | .STRICT_NOT_EQUAL, _, _ =>
      .error "operand coercion outside the modelled value domain"
  | _, _, _ => .error ("Unknown comparison operator: " ++ toString (repr op))

/-! ## The sequential evaluator

The tree-walking evaluator of `src/core/STE/evaluator` (the `Evaluator` /
`ExpressionEvaluator` / `StatementEvaluator` trio sharing one state), as
explicit state passing in `EvalState` with thrown errors as
`Except.error`.  Sibling lists (`each` bodies, array elements, filter
arguments) are evaluated here in left-to-right sequential order; the
source starts them concurrently with `Promise.all` — the coroutine model
further below captures that difference, which is exactly what the
sequential-ordering claim is about. -/

mutual

/-- `Evaluator.evaluateNode`: dispatch over the node's `type` tag.  The
`key_ref` tag has no case in the source switch and falls to the
`Unknown node type` default. -/
def evaluateNode : Node → EvalState → EvalState × Except String JsValue
  | .literal v, st => (st, .ok v)
  | .var name, st => (st, .ok (evaluateVariable st name))
  | .expression e, st => evaluateExpression e st
  | .rawHtml name, st => (st, evaluateRawHtmlStr st name)
  | .grouping e, st => evaluateNode e st
  | .arrayLit es, st =>
      match evalNodeList es st with
      | (st', .ok vs) => (st', .ok (.arr vs))
      | (st', .error e) => (st', .error e)
  | .objectLit props, st => evaluateObject props [] st
  | .property o p, st => evaluateProperty o p st
  | .computedProperty o p, st => evaluateComputedProperty o p st
  | .filter e name args, st => evaluateFilter e name args st
  | .set name value, st => evaluateSet name value st
  | .nullNode, st =>
      -- a `null` pushed by `Parser.parse` for a stray closing tag; the
      -- evaluator faults reading `node.type` on it
      (st, .error "Cannot read properties of null (reading 'type')")
  | .each _ it body, st =>
      -- `StatementEvaluator.evaluateEach`: evaluate the iterable; arrays
      -- iterate value-wise (key = stringified index), plain objects
      -- entry-wise (key = entry key); anything else raises
      -- `Cannot iterate over …`.
      (match evaluateNode it st with
       | (st', .error e) => (st', .error e)
       | (st', .ok iterable) =>
           match iterable with
           | .arr items =>
               (match eachLoopArr body items 0 "" st' with
                | (st'', .ok s) => (st'', .ok (.str s))
                | (st'', .error e) => (st'', .error e))
           | .obj props =>
               (match eachLoopObj body props 0 "" st' with
                | (st'', .ok s) => (st'', .ok (.str s))
                | (st'', .error e) => (st'', .error e))
           | other => (st', .error ("Cannot iterate over " ++ jsToString other)))
  | .indexRef, st => (st, .ok st.currentIndexVal)
  | .thisRef, st => (st, .ok st.currentContext)
  | .keyRef, st => (st, .error "Unknown node type: key_ref")
  | .conditional ct c body alts, st =>
      match evaluateConditional ct c body alts st with
      | (st', .ok s) => (st', .ok (.str s))
      | (st', .error e) => (st', .error e)
  | .unary op right, st =>
      -- `ExpressionEvaluator.evaluateUnary`
      (match evaluateNode right st with
       | (st', .error e) => (st', .error e)
       | (st', .ok v) =>
           if op = TokType.NOT then (st', .ok (.bool (!jsTruthy v)))
           else if op = TokType.MINUS then
             (st', match v with
               | .num n => .ok (.num (-n))
               | _ => .error "operand coercion outside the modelled value domain")
           else (st', .error ("Unknown unary operator: " ++ toString (repr op))))
  | .binary op left right, st =>
      -- `ExpressionEvaluator.evaluateBinary`
      (match evaluateNode left st with
       | (st', .error e) => (st', .error e)
       | (st', .ok l) =>
           match evaluateNode right st' with
           | (st'', .error e) => (st'', .error e)
           | (st'', .ok r) => (st'', evaluateBinaryOp op l r))
  | .logical op left right, st =>
      -- `ExpressionEvaluator.evaluateLogical`: JS `&&`/`||` return the
      -- deciding operand's value, not a boolean.
      (match evaluateNode left st with
       | (st', .error e) => (st', .error e)
       | (st', .ok l) =>
           if op = TokType.AND then
             if jsTruthy l then evaluateNode right st' else (st', .ok l)
           else
             if jsTruthy l then (st', .ok l) else evaluateNode right st')
  | .comparison op left right, st =>
      -- `ExpressionEvaluator.evaluateComparison`
      (match evaluateNode left st with
       | (st', .error e) => (st', .error e)
       | (st', .ok l) =>
           match evaluateNode right st' with
           | (st'', .error e) => (st'', .error e)
           | (st'', .ok r) => (st'', evaluateComparisonOp op l r))
  | .ternary c t f, st =>
      -- `ExpressionEvaluator.evaluateTernary`
      (match evaluateNode c st with
       | (st', .error e) => (st', .error e)
       | (st', .ok v) =>
           if jsTruthy v then evaluateNode t st' else evaluateNode f st')
  | .includeNode _, st =>
      -- `StatementEvaluator.evaluateInclude` re-enters the template
      -- engine facade (file reads); outside the evaluator model.  Its
      -- path type guard is modelled separately as `includePathGuard`.
      (st, .error "include evaluation requires the file-loading facade")
  | .template body, st =>
      match evalConcat body st with
      | (st', .ok s) => (st', .ok (.str s))
      | (st', .error e) => (st', .error e)
termination_by n _ => (sizeOf n, 0, 3)
decreasing_by all_goals (simp [Prod.lex_iff]; try omega)

/-- `ExpressionEvaluator.evaluateExpression`: evaluate the wrapped
expression; `undefined` becomes `""`. -/
def evaluateExpression (e : Node) (st : EvalState) : EvalState × Except String JsValue :=
  match evaluateNode e st with
  | (st', .ok r) => (st', .ok (if r.isUndef then JsValue.str "" else r))
  | (st', .error er) => (st', .error er)
termination_by (sizeOf e, 0, 4)
decreasing_by all_goals (simp [Prod.lex_iff]; try omega)

/-- `ExpressionEvaluator.evaluateObject`: evaluate property values one at
a time in entry order, assigning into a fresh object. -/
def evaluateObject (props : List (String × Node)) (acc : List (String × JsValue))
    (st : EvalState) : EvalState × Except String JsValue :=
  match props with
  | [] => (st, .ok (.obj acc))
  | (k, vn) :: rest =>
      match evaluateNode vn st with
      | (st', .ok v) => evaluateObject rest (setKey acc k v) st'
      | (st', .error e) => (st', .error e)
termination_by (sizeOf props, 0, 4)
decreasing_by all_goals (simp [Prod.lex_iff]; try omega)

/-- `ExpressionEvaluator.evaluateProperty`: falsy objects give
`undefined`, otherwise plain member access. -/
def evaluateProperty (o : Node) (p : String) (st : EvalState) :
    EvalState × Except String JsValue :=
  match evaluateNode o st with
  | (st', .ok objv) =>
      (st', .ok (if !(jsTruthy objv) then .undef else jsMemberGet objv p))
  | (st', .error e) => (st', .error e)
termination_by (sizeOf o, 0, 4)
decreasing_by all_goals (simp [Prod.lex_iff]; try omega)

/-- `ExpressionEvaluator.evaluateComputedProperty`: falsy objects give
`undefined`; the computed key is used only when it is a string or a
number. -/
def evaluateComputedProperty (o p : Node) (st : EvalState) :
    EvalState × Except String JsValue :=
  match evaluateNode o st with
  | (st', .error e) => (st', .error e)
  | (st', .ok objv) =>
      if !(jsTruthy objv) then (st', .ok .undef)
      else
        match evaluateNode p st' with
        | (st'', .error e) => (st'', .error e)
        | (st'', .ok propv) =>
            (st'', .ok (match propv with
              | .str s => jsMemberGet objv s
              | .num n => jsMemberGet objv (toString n)
              | _ => .undef))
termination_by (sizeOf o + sizeOf p, 0, 4)
decreasing_by all_goals (simp [Prod.lex_iff]; try omega)

/-- `ExpressionEvaluator.evaluateFilter`: evaluate the wrapped expression,
look the filter up (unknown names are a hard, unwrapped error), then
inside the try block evaluate the arguments and apply the filter; any
error from that block is rewrapped with the filter's name. -/
def evaluateFilter (e : Node) (name : String) (args : List Node) (st : EvalState) :
    EvalState × Except String JsValue :=
  match evaluateNode e st with
  | (st', .error er) => (st', .error er)
  | (st', .ok value) =>
      match filtersLookup name with
      | none => (st', .error ("Unknown filter: " ++ name))
      | some f =>
          match evalNodeList args st' with
          | (st'', .error er) =>
              (st'', .error ("Error applying filter '" ++ name ++ "': " ++ er))
          | (st'', .ok argVals) =>
              let applied :=
                if name = "toLink" then
                  if argVals.length < 1 || argVals.length > 3 then
                    Except.error
                      "toLink filter expects 1 to 3 arguments: display text, external (optional), safe (optional)"
                  else
                    f value [argVals.getD 0 .undef,
                             .bool (isTrueV (argVals.getD 1 .undef)),
                             .bool (isTrueV (argVals.getD 2 .undef))]
                else f value argVals
              (st'', match applied with
                | .ok v => .ok v
                | .error er => .error ("Error applying filter '" ++ name ++ "': " ++ er))
termination_by (sizeOf e + sizeOf args, 0, 4)
decreasing_by all_goals (simp [Prod.lex_iff]; try omega)

/-- `StatementEvaluator.evaluateSet`, plain-name form: evaluate the value;
`html_`-prefixed names store `(marker, value)` in the engine's `htmlVars`
map (minting a fresh marker unless one exists) and put the marker in
global data; other names assign the value into global data.  Returns
`""`. -/
def evaluateSet (name : String) (valueNode : Node) (st : EvalState) :
    EvalState × Except String JsValue :=
  match evaluateNode valueNode st with
  | (st', .error e) => (st', .error e)
  | (st', .ok value) => (setAssign st' name value, .ok (.str ""))
termination_by (sizeOf valueNode, 0, 4)
decreasing_by all_goals (simp [Prod.lex_iff]; try omega)

/-- The array arm of `evaluateEach`'s loop: push the three frames, run the
body, join the results with `""`, and pop the frames in all cases
(`finally`); the index advances only when the iteration succeeds. -/
def eachLoopArr (body : List Node) (items : List JsValue) (index : Int) (acc : String)
    (st : EvalState) : EvalState × Except String String :=
  match items with
  | [] => (st, .ok acc)
  | item :: rest =>
      let st1 := pushFrames st item index (toString index)
      match evalNodeList body st1 with
      | (st2, .ok vs) =>
          eachLoopArr body rest (index + 1) (acc ++ jsJoin vs "") (popFrames st2)
      | (st2, .error e) => (popFrames st2, .error e)
termination_by (sizeOf body, items.length, 2)
decreasing_by all_goals (simp [Prod.lex_iff]; try omega)

/-- The object (`Object.entries`) arm of `evaluateEach`'s loop. -/
def eachLoopObj (body : List Node) (entries : List (String × JsValue)) (index : Int)
    (acc : String) (st : EvalState) : EvalState × Except String String :=
  match entries with
  | [] => (st, .ok acc)
  | (key, value) :: rest =>
      let st1 := pushFrames st value index key
      match evalNodeList body st1 with
      | (st2, .ok vs) =>
          eachLoopObj body rest (index + 1) (acc ++ jsJoin vs "") (popFrames st2)
      | (st2, .error e) => (popFrames st2, .error e)
termination_by (sizeOf body, entries.length, 2)
decreasing_by all_goals (simp [Prod.lex_iff]; try omega)

/-- `StatementEvaluator.evaluateConditional`: `not` renders its body iff
the condition is falsy; `if` renders its body when truthy and otherwise
scans the alternates in order; any other condition type returns `""`.
Condition evaluation errors propagate — there is no catch here. -/
def evaluateConditional (conditionType : String) (condition : Node) (body : List Node)
    (alternates : List (String × Option Node × List Node)) (st : EvalState) :
    EvalState × Except String String :=
  if conditionType = "not" then
    match evaluateNode condition st with
    | (st', .error e) => (st', .error e)
    | (st', .ok c) => if !(jsTruthy c) then evalConcat body st' else (st', .ok "")
  else if conditionType = "if" then
    match evaluateNode condition st with
    | (st', .error e) => (st', .error e)
    | (st', .ok c) =>
        if jsTruthy c then evalConcat body st'
        else evalAlternates alternates st'
  else (st, .ok "")
termination_by (sizeOf condition + sizeOf body + sizeOf alternates, 0, 4)
decreasing_by all_goals (simp [Prod.lex_iff]; try omega)

/-- The alternate scan of `evaluateConditional`: `else` always fires;
otherwise the alternate's condition is evaluated (the short-circuit means
an absent condition is only touched for non-`else` alternates, where the
source would fault on `undefined`). -/
def evalAlternates (alts : List (String × Option Node × List Node)) (st : EvalState) :
    EvalState × Except String String :=
  match alts with
  | [] => (st, .ok "")
  | (ct, cond, abody) :: rest =>
      if ct = "else" then evalConcat abody st
      else
        match cond with
        | some c =>
            (match evaluateNode c st with
             | (st', .error e) => (st', .error e)
             | (st', .ok v) =>
                 if jsTruthy v then evalConcat abody st' else evalAlternates rest st')
        | none => (st, .error "Cannot read properties of undefined")
termination_by (sizeOf alts, 0, 2)
decreasing_by all_goals (simp [Prod.lex_iff]; try omega)

/-- The `result += await evaluateNode(n)` accumulation loop shared by
`evaluateTemplate` and the conditional bodies: string-coerce and
concatenate each child's value in order. -/
def evalConcat (l : List Node) (st : EvalState) : EvalState × Except String String :=
  match l with
  | [] => (st, .ok "")
  | n :: rest =>
      match evaluateNode n st with
      | (st', .error e) => (st', .error e)
      | (st', .ok v) =>
          match evalConcat rest st' with
          | (st'', .ok s) => (st'', .ok (jsToString v ++ s))
          | (st'', .error e) => (st'', .error e)
termination_by (sizeOf l, 0, 2)
decreasing_by all_goals (simp [Prod.lex_iff]; try omega)

/-- Evaluate a sibling list collecting the values (the sequential
rendering of `Promise.all(list.map(n => evaluateNode(n)))`). -/
def evalNodeList (l : List Node) (st : EvalState) :
    EvalState × Except String (List JsValue) :=
  match l with
  | [] => (st, .ok [])
  | n :: rest =>
      match evaluateNode n st with
      | (st', .error e) => (st', .error e)
      | (st', .ok v) =>
          match evalNodeList rest st' with
          | (st'', .ok vs) => (st'', .ok (v :: vs))
          | (st'', .error e) => (st'', .error e)
termination_by (sizeOf l, 0, 2)
decreasing_by all_goals (simp [Prod.lex_iff]; try omega)

end

/-- `Evaluator.evaluateTemplate`: concatenate the string coercions of the
body children in order. -/
@[simp] def evaluateTemplate (body : List Node) (st : EvalState) : EvalState × Except String String :=
  evalConcat body st

/-- Top-level AST evaluation against a data context
(`Evaluator.evaluate`), keeping only the rendered text. -/
@[simp] def evalAst (ast : Node) (data : List (String × JsValue)) : Except String String :=
  match evaluateNode ast (initState data) with
  | (_, .ok v) => .ok (jsToString v)
  | (_, .error e) => .error e

/-! ## Coroutine model of the async evaluator

JavaScript async-function semantics for the fragment of the evaluator the
sequential-ordering claim is about.  An async function runs synchronously
up to its first `await` and then suspends; `Promise.all(list.map(f))`
invokes every `f` immediately — each sibling's synchronous prefix runs,
in list order, before any sibling's post-`await` continuation — and the
suspended continuations are then driven by the microtask queue, modelled
here as fair in-order rounds.  The rendered result of the templates used
in the theorems below is the same under any schedule of the suspended
continuations: the ordering fact they exercise (a sibling's synchronous
read runs before an earlier sibling's post-`await` write) is schedule
independent. -/

/-!
A suspended computation (`CoR`) is either a final value, or a paused
continuation that, when resumed by the scheduler, runs its next
synchronous segment against the shared evaluator state.  `CoSt` bundles
the state left by a segment with the rest of the computation. -/
mutual
inductive CoR (α : Type) where
  | done (a : α)
  | paused (k : EvalState → CoSt α)
inductive CoSt (α : Type) where
  | mk (s : EvalState) (r : CoR α)
end

/-- A coroutine: run the current synchronous segment against the state,
yielding the new state and either a value or a suspension. -/
def Co (α : Type) : Type := EvalState → CoSt α

/-- The state component of a segment result. -/
@[simp] def CoSt.st {α : Type} : CoSt α → EvalState
  | .mk s _ => s

/-- The rest-of-computation component of a segment result. -/
@[simp] def CoSt.r {α : Type} : CoSt α → CoR α
  | .mk _ r => r

/-!
`contin f` continues a finished-or-paused computation with `f` in the
same synchronous segment (plain sequencing inside one async body): a
`done` value feeds `f` immediately; a paused computation stays paused,
with the continuation glued behind the resumption. -/
mutual
def CoR.contin {α β : Type} (f : α → Co β) : CoR α → EvalState → CoSt β
  | .done a, s => f a s
  | .paused k, s => .mk s (.paused (fun s2 => CoSt.contin f (k s2)))
def CoSt.contin {α β : Type} (f : α → Co β) : CoSt α → CoSt β
  | .mk s r => CoR.contin f r s
end

/-- Sequencing inside one async function body: no extra suspension. -/
def Co.bind {α β : Type} (c : Co α) (f : α → Co β) : Co β :=
  fun s =>
    match c s with
    | .mk s2 r => CoR.contin f r s2

/-- Pure value in the current segment. -/
def Co.pure {α : Type} (a : α) : Co α := fun s => .mk s (.done a)

/-- `await` on a settled value: the continuation resumes in a later
microtask (one suspension). -/
def Co.yieldVal {α : Type} (a : α) : Co α :=
  fun s => .mk s (.paused (fun s2 => .mk s2 (.done a)))

/-- `await c` for a called async function `c`: `c`'s own suspensions
suspend the caller too, and its completion is observed only after one
more microtask hop. -/
def Co.await {α : Type} (c : Co α) : Co α := Co.bind c Co.yieldVal

/-- Result type of one evaluator coroutine. -/
abbrev JRes := Except String JsValue

/-- A `Promise.all` task slot: settled, or suspended at a continuation. -/
inductive TaskSt where
  | fin (r : JRes)
  | pend (k : EvalState → CoSt JRes)

/-- Phase 1 of `Promise.all(list.map(f))`: invoke every child in list
order; each runs its synchronous prefix immediately. -/
def phase1 : List (Co JRes) → EvalState → EvalState × List TaskSt
  | [], s => (s, [])
  | c :: rest, s =>
      let p := c s
      let slot := match p.r with
        | .done a => TaskSt.fin a
        | .paused k => TaskSt.pend k
      let q := phase1 rest p.st
      (q.1, slot :: q.2)

/-- One scheduler round: resume every pending task for one segment, in
index order. -/
def schedRound : List TaskSt → EvalState → EvalState × List TaskSt
  | [], s => (s, [])
  | .fin r :: rest, s =>
      let q := schedRound rest s
      (q.1, .fin r :: q.2)
  | .pend k :: rest, s =>
      let p := k s
      let slot := match p.r with
        | .done a => TaskSt.fin a
        | .paused k2 => TaskSt.pend k2
      let q := schedRound rest p.st
      (q.1, slot :: q.2)

/-- Collect the results once every task has settled. -/
def allSettled : List TaskSt → Option (List JRes)
  | [] => some []
  | .fin r :: rest => (allSettled rest).map (r :: ·)
  | .pend _ :: _ => none

/-- `Promise.all` over a fully settled task list: the first error (in
index order, which for a synchronously settled list is settlement order)
rejects, otherwise the value list resolves. -/
def collectAll : List JRes → Except String (List JsValue)
  | [] => .ok []
  | .ok v :: rest => (collectAll rest).map (v :: ·)
  | .error e :: _ => .error e

/-- Is some task already settled with an error?  (`Promise.all` has
rejected as soon as one is.) -/
def firstError : List TaskSt → Option String
  | [] => none
  | .fin (.error e) :: _ => some e
  | _ :: rest => firstError rest

/-- Drive the scheduler: rounds of already-queued continuations run until
every task settles, or until the round in which the first rejection lands
completes — `Promise.all` rejects eagerly, but the sibling continuations
of that round were queued before the rejection's continuation, so they
still run; the composite then settles with the error, and the unsettled
siblings are abandoned (their later segments would run only after the
awaiting continuation has already observed the settle-time state). -/
def sched : Nat → List TaskSt → EvalState → EvalState × Option (Except String (List JsValue))
  | 0, _, s => (s, none)
  | fuel + 1, ts, s =>
      match allSettled ts with
      | some rs => (s, some (collectAll rs))
      | none =>
          let p := schedRound ts s
          match firstError p.2 with
          | some e => (p.1, some (.error e))
          | none => sched fuel p.2 p.1

/-- `await Promise.all(children)` as one coroutine: phase 1 starts every
child synchronously; if everything settles synchronously the composite is
done, otherwise it suspends while the scheduler drives the remaining
continuations until settlement or the first rejection (the traces below
have at most one rejecting child, so the index-order scan of
`firstError` picks the temporally first rejection). -/
def promiseAll (cs : List (Co JRes)) (fuel : Nat) : Co (Except String (List JsValue)) :=
  fun s =>
    let p := phase1 cs s
    match allSettled p.2 with
    | some rs => .mk p.1 (.done (collectAll rs))
    | none =>
        .mk p.1 (.paused (fun s2 =>
          let q := sched fuel p.2 s2
          .mk q.1 (.done ((q.2).getD (.error "scheduler fuel exhausted")))))

mutual

/-- `Evaluator.evaluateNode` in the coroutine model, for the fragment the
ordering claim exercises (literals, variables, expression statements,
plain `#set`, `each` over arrays, `@index`, templates).  A `return node
.value` has no `await` and stays in the current segment; every `return
await …` dispatch inserts the hop of its `await`.  Nodes outside the
fragment settle synchronously with an error. -/
def coEvalNode (fuel : Nat) : Node → Co JRes
  | .literal v => Co.pure (.ok v)
  | .var name => Co.await (fun s => .mk s (.done (.ok (evaluateVariable s name))))
  | .expression e => Co.await (coEvalExpression fuel e)
  | .set name value => Co.await (coEvalSet fuel name value)
  | .each _ it body =>
      -- `StatementEvaluator.evaluateEach` (array arm): `const iterable =
      -- await evaluateNode(node.iterable)` then the iteration loop.
      Co.await (Co.bind (Co.await (coEvalNode fuel it)) (fun r =>
        match r with
        | .error e => Co.pure (.error e)
        | .ok (JsValue.arr items) => coLoopArr fuel body items 0 ""
        | .ok other => Co.pure (.error ("Cannot iterate over " ++ jsToString other))))
  | .indexRef => fun s => .mk s (.done (.ok s.currentIndexVal))
  | .template body => Co.await (coConcat fuel body "")
  | _ => Co.pure (.error "node outside the coroutine fragment")
termination_by n => (sizeOf n, 0, 3)
decreasing_by all_goals (simp [Prod.lex_iff]; try omega)

/-- `ExpressionEvaluator.evaluateExpression` in the coroutine model. -/
def coEvalExpression (fuel : Nat) (e : Node) : Co JRes :=
  Co.bind (Co.await (coEvalNode fuel e)) (fun r =>
    Co.pure (match r with
      | .ok v => .ok (if v.isUndef then JsValue.str "" else v)
      | .error er => .error er))
termination_by (sizeOf e, 0, 4)
decreasing_by all_goals (simp [Prod.lex_iff]; try omega)

/-- `StatementEvaluator.evaluateSet` in the coroutine model: the write to
global data happens only in the continuation after `await
evaluateNode(node.value)` — strictly after the current microtask. -/
def coEvalSet (fuel : Nat) (name : String) (value : Node) : Co JRes :=
  Co.bind (Co.await (coEvalNode fuel value)) (fun r =>
    match r with
    | .error e => Co.pure (.error e)
    | .ok v => fun s => .mk (setAssign s name v) (.done (.ok (.str ""))))
termination_by (sizeOf value, 0, 4)
decreasing_by all_goals (simp [Prod.lex_iff]; try omega)

/-- The iteration loop of `evaluateEach` (array arm): push the three
frames synchronously, `await Promise.all(node.body.map(evaluateNode))`,
pop in `finally`, and continue with the next item. -/
def coLoopArr (fuel : Nat) (body : List Node) (items : List JsValue) (index : Int)
    (acc : String) : Co JRes :=
  match items with
  | [] => Co.pure (.ok (.str acc))
  | item :: rest =>
      fun s =>
        let s1 := pushFrames s item index (toString index)
        (Co.bind (Co.await (promiseAll (coChildren fuel body) fuel)) (fun r =>
          match r with
          | .error e => fun s2 => .mk (popFrames s2) (.done (.error e))
          | .ok vs => fun s2 =>
              coLoopArr fuel body rest (index + 1) (acc ++ jsJoin vs "") (popFrames s2)))
          s1
termination_by (sizeOf body, items.length, 2)
decreasing_by all_goals (simp [Prod.lex_iff]; try omega)

/-- `node.body.map((n) => this.evaluator.evaluateNode(n))`. -/
def coChildren (fuel : Nat) : List Node → List (Co JRes)
  | [] => []
  | n :: rest => coEvalNode fuel n :: coChildren fuel rest
termination_by l => (sizeOf l, 0, 2)
decreasing_by all_goals (simp [Prod.lex_iff]; try omega)

/-- `Evaluator.evaluateTemplate` in the coroutine model: sequential
`result += await evaluateNode(n)` accumulation. -/
def coConcat (fuel : Nat) (l : List Node) (acc : String) : Co JRes :=
  match l with
  | [] => Co.pure (.ok (.str acc))
  | n :: rest =>
      Co.bind (Co.await (coEvalNode fuel n)) (fun r =>
        match r with
        | .error e => Co.pure (.error e)
        | .ok v => coConcat fuel rest (acc ++ jsToString v))
termination_by (sizeOf l, 0, 2)
decreasing_by all_goals (simp [Prod.lex_iff]; try omega)

end

/-- Drive the outermost coroutine to completion (fuel-bounded). -/
def driveCoR {α : Type} : Nat → CoR α → EvalState → EvalState × Option α
  | _, .done a, s => (s, some a)
  | 0, .paused _, s => (s, none)
  | fuel + 1, .paused k, s =>
      let p := k s
      driveCoR fuel p.r p.st

/-- Render an AST under the coroutine (JavaScript-faithful) model. -/
def coEvalAst (fuel : Nat) (ast : Node) (data : List (String × JsValue)) :
    Except String String :=
  let p := coEvalNode fuel ast (initState data)
  match driveCoR fuel p.r p.st with
  | (_, some (.ok v)) => .ok (jsToString v)
  | (_, some (.error e)) => .error e
  | (_, none) => .error "fuel exhausted"

/-- Run one node to settlement under the coroutine model, returning the
state at the moment the node's coroutine settles together with its
result. -/
def coRunNode (fuel : Nat) (n : Node) (st : EvalState) :
    EvalState × Option JRes :=
  let p := coEvalNode fuel n st
  driveCoR fuel p.r p.st

/-- The `each` node exercising the eager-rejection path: its body pairs a
child that throws after one suspension (an `each` over the non-iterable
number `7`) with a nested `each` that, at the moment the rejection
resumes the outer iteration's `finally`, has pushed its own frames and is
still suspended awaiting its inner `Promise.all`. -/
def c4EachNode : Node :=
  .each "each" (.literal (.arr [.num 0]))
    [.each "each" (.literal (.num 7)) [],
     .each "each" (.literal (.arr [.num 0])) [.expression (.var "q")]]

/-! ## Tokenizer

`src/core/STE/syntax`: `TokenizerState.js`, `BaseTokenizer.js`,
`Tokenizer.js`, `TagTokenizer.js`, `OperatorTokenizer.js`,
`ExpressionTokenizer.js`.  The character-walking loops take explicit
fuel; `tokenize` supplies `source.length + 1`, an upper bound on any
loop's iterations (every iteration consumes a character). -/

/-- `TokenizerState.js`. -/
structure TokState where
  source : List Char
  tokens : List Token
  start : Nat
  current : Nat
  position : Nat
  isInExpression : Bool
  braceCount : Nat

/-- `source.charAt(i)` (out-of-range access is always guarded at the
call sites, mirroring the source). -/
@[simp] def tkCharAt (s : List Char) (i : Nat) : Char :=
  (s.get? i).getD '\x00'

/-- `BaseTokenizer.isAtEnd`. -/
@[simp] def tkIsAtEnd (st : TokState) : Bool :=
  st.source.length ≤ st.current

/-- `BaseTokenizer.advance`: return the current character and step both
counters. -/
@[simp] def tkAdvance (st : TokState) : Char × TokState :=
  (tkCharAt st.source st.current,
   { st with position := st.position + 1, current := st.current + 1 })

/-- `BaseTokenizer.match`: consume the next character iff it equals
`expected`. -/
@[simp] def tkMatch (expected : Char) (st : TokState) : Bool × TokState :=
  if tkIsAtEnd st then (false, st)
  else if tkCharAt st.source st.current ≠ expected then (false, st)
  else (true, { st with position := st.position + 1, current := st.current + 1 })

/-- `BaseTokenizer.peek` (`"\0"` at end of input). -/
@[simp] def tkPeek (st : TokState) : Char :=
  if tkIsAtEnd st then '\x00' else tkCharAt st.source st.current

/-- `BaseTokenizer.peekNext`. -/
@[simp] def tkPeekNext (st : TokState) : Char :=
  if st.source.length ≤ st.current + 1 then '\x00'
  else tkCharAt st.source (st.current + 1)

/-- `BaseTokenizer.isDigit`. -/
@[simp] def isDigitC (c : Char) : Bool := '0' ≤ c && c ≤ '9'

/-- `BaseTokenizer.isAlpha`. -/
@[simp] def isAlphaC (c : Char) : Bool :=
  ('a' ≤ c && c ≤ 'z') || ('A' ≤ c && c ≤ 'Z') || c = '_'

/-- `BaseTokenizer.isAlphaNumeric`. -/
@[simp] def isAlphaNumericC (c : Char) : Bool := isAlphaC c || isDigitC c

/-- `source.substring(a, b)`. -/
@[simp] def substrRange (s : List Char) (a b : Nat) : String :=
  ⟨(s.drop a).take (b - a)⟩

/-- `BaseTokenizer.addToken`: the lexeme is `substring(start, current)`
and the recorded position is `position - lexeme.length`. -/
@[simp] def tkAddToken (t : TokType) (lit : TokLit) (st : TokState) : TokState :=
  let text := substrRange st.source st.start st.current
  { st with tokens :=
      st.tokens ++ [⟨t, text, lit, st.position - text.length⟩] }

/-- The `while` of `ExpressionTokenizer.string`: advance until the
closing quote or end of input. -/
def tkStringLoop : Nat → Char → TokState → TokState
  | 0, _, st => st
  | fuel + 1, quote, st =>
      if tkPeek st ≠ quote ∧ ¬ tkIsAtEnd st then
        tkStringLoop fuel quote (tkAdvance st).2
      else st

/-- `ExpressionTokenizer.string`. -/
def tkString (fuel : Nat) (quote : Char) (st : TokState) : Except String TokState :=
  let st1 := tkStringLoop fuel quote st
  if tkIsAtEnd st1 then
    .error ("Unterminated string at position " ++ toString st1.position)
  else
    let st2 := (tkAdvance st1).2
    let value := substrRange st2.source (st2.start + 1) (st2.current - 1)
    .ok (tkAddToken .STRING (.strL value) st2)

/-- The `while` of `ExpressionTokenizer.identifier`. -/
def tkIdentLoop : Nat → TokState → TokState
  | 0, st => st
  | fuel + 1, st =>
      if isAlphaNumericC (tkPeek st) then tkIdentLoop fuel (tkAdvance st).2
      else st

/-- `ExpressionTokenizer.identifier`: keywords `true`/`false`/`this` get
their own token types; the literal slot stays `null`. -/
def tkIdentifier (fuel : Nat) (st : TokState) : TokState :=
  let st1 := tkIdentLoop fuel st
  let text := substrRange st1.source st1.start st1.current
  let t := if text = "true" then TokType.TRUE
    else if text = "false" then TokType.FALSE
    else if text = "this" then TokType.THIS
    else TokType.IDENTIFIER
  tkAddToken t .nullL st1

/-- A digit run (`while (this.isDigit(this.peek())) this.advance()`). -/
def tkDigitsLoop : Nat → TokState → TokState
  | 0, st => st
  | fuel + 1, st =>
      if isDigitC (tkPeek st) then tkDigitsLoop fuel (tkAdvance st).2
      else st

/-- Numeric value of a digit run. -/
@[simp] def digitsToInt (l : List Char) : Int :=
  l.foldl (fun acc c => acc * 10 + (c.toNat - '0'.toNat)) 0

/-- `ExpressionTokenizer.number`.  The literal is `Number(text)`;
integers are modelled exactly, and for a decimal literal the model
records the integer part (decimal values are outside the modelled
numeric domain; no claim involves them). -/
def tkNumber (fuel : Nat) (st : TokState) : TokState :=
  let st1 := tkDigitsLoop fuel st
  let st2 :=
    if tkPeek st1 = '.' ∧ isDigitC (tkPeekNext st1) then
      tkDigitsLoop fuel (tkAdvance st1).2
    else st1
  let text := (st2.source.drop st2.start).take (st2.current - st2.start)
  tkAddToken .NUMBER (.numL (digitsToInt (text.takeWhile (· ≠ '.')))) st2

/-- The tag-name loop of `TagTokenizer.handleTag`: alphabetic characters,
or alphanumeric once the accumulated tag starts with `html_`. -/
def tkTagLoop : Nat → String → TokState → String × TokState
  | 0, tag, st => (tag, st)
  | fuel + 1, tag, st =>
      if isAlphaC (tkPeek st) ∨ (jsStartsWith tag "html_" ∧ isAlphaNumericC (tkPeek st)) then
        let p := tkAdvance st
        tkTagLoop fuel (tag.push p.1) p.2
      else (tag, st)

/-- The digit-suffix loop for `each` tags. -/
def tkTagDigitsLoop : Nat → String → TokState → String × TokState
  | 0, tag, st => (tag, st)
  | fuel + 1, tag, st =>
      if isDigitC (tkPeek st) then
        let p := tkAdvance st
        tkTagDigitsLoop fuel (tag.push p.1) p.2
      else (tag, st)

/-- `tag.match(/^each\d+$/)`. -/
@[simp] def isEachN (tag : String) : Bool :=
  jsStartsWith tag "each" ∧ (tag.drop 4) ≠ "" ∧ (tag.drop 4).data.all isDigitC

/-- `TagTokenizer.handleTag`: read the tag name (plus digits for
`each`), then dispatch; an unknown tag is a hard error — in particular
`@`-forms are not handled here. -/
def tkHandleTag (fuel : Nat) (st : TokState) : Except String TokState :=
  let p := tkTagLoop fuel "" st
  let q := if p.1 = "each" then tkTagDigitsLoop fuel p.1 p.2 else p
  let tag := q.1
  let st1 := q.2
  if tag = "set" then .ok (tkAddToken .TAG_SET .nullL st1)
  else if tag = "if" ∨ tag = "elseif" ∨ tag = "else" ∨ tag = "not" then
    .ok (tkAddToken .TAG_CONDITIONAL (.strL tag) st1)
  else if tag = "each" ∨ isEachN tag then
    .ok (tkAddToken .TAG_EACH (.strL tag) st1)
  else if tag = "include" then .ok (tkAddToken .TAG_INCLUDE .nullL st1)
  else if jsStartsWith tag "html_" then .ok (tkAddToken .RAW_HTML (.strL tag) st1)
  else .error ("Unexpected tag: #" ++ tag ++ " at position " ++ toString st1.position)

/-- The alphabetic loop of `TagTokenizer.handleSlash`. -/
def tkSlashLoop : Nat → String → TokState → String × TokState
  | 0, tag, st => (tag, st)
  | fuel + 1, tag, st =>
      if isAlphaC (tkPeek st) then
        let p := tkAdvance st
        tkSlashLoop fuel (tag.push p.1) p.2
      else (tag, st)

/-- `TagTokenizer.handleSlash`: note the source checks `peekNext()` (the
second character after the slash) before reading a closing tag, and
falls back to a `DIVIDE` token. -/
def tkHandleSlash (fuel : Nat) (st : TokState) : Except String TokState :=
  if isAlphaC (tkPeekNext st) then
    let p := tkSlashLoop fuel "" st
    let q := if p.1 = "each" then tkTagDigitsLoop fuel p.1 p.2 else p
    let tag := q.1
    let st1 := q.2
    if tag = "each" ∨ isEachN tag ∨ tag = "if" ∨ tag = "not" then
      if tag = "each" ∨ isEachN tag then
        .ok (tkAddToken .TAG_EACH_CLOSE (.strL tag) st1)
      else
        .ok (tkAddToken .TAG_CONDITIONAL_CLOSE (.strL tag) st1)
    else
      .error ("Unexpected closing tag: /" ++ tag ++ " at position " ++ toString st1.position)
  else .ok (tkAddToken .DIVIDE .nullL st)

/-- `TagTokenizer.handleAtSymbol`: only `@index` tokenizes; anything
else (in particular `@key`) throws `Unexpected @ syntax`.  The
`match`-chain short-circuits, consuming matched characters as it goes. -/
def tkHandleAtSymbol (st : TokState) : Except String TokState :=
  let p1 := tkMatch 'i' st
  if p1.1 then
    let p2 := tkMatch 'n' p1.2
    if p2.1 then
      let p3 := tkMatch 'd' p2.2
      if p3.1 then
        let p4 := tkMatch 'e' p3.2
        if p4.1 then
          let p5 := tkMatch 'x' p4.2
          if p5.1 then .ok (tkAddToken .AT_INDEX .nullL p5.2)
          else .error ("Unexpected @ syntax at position " ++ toString p5.2.position)
        else .error ("Unexpected @ syntax at position " ++ toString p4.2.position)
      else .error ("Unexpected @ syntax at position " ++ toString p3.2.position)
    else .error ("Unexpected @ syntax at position " ++ toString p2.2.position)
  else .error ("Unexpected @ syntax at position " ++ toString p1.2.position)

/-- `OperatorTokenizer.handleAndOperator`: a single `&` adds no token. -/
@[simp] def tkHandleAnd (st : TokState) : TokState :=
  let p := tkMatch '&' st
  if p.1 then tkAddToken .AND .nullL p.2 else p.2

/-- `OperatorTokenizer.handleOrOperator`. -/
@[simp] def tkHandleOr (st : TokState) : TokState :=
  let p := tkMatch '|' st
  if p.1 then tkAddToken .OR .nullL p.2 else tkAddToken .PIPE_FILTER .nullL p.2

/-- `OperatorTokenizer.handleEqualityOperator`. -/
@[simp] def tkHandleEquality (st : TokState) : TokState :=
  let p := tkMatch '=' st
  if p.1 then
    let q := tkMatch '=' p.2
    if q.1 then tkAddToken .STRICT_EQUAL .nullL q.2 else tkAddToken .EQUAL .nullL q.2
  else tkAddToken .EQUAL .nullL p.2

/-- `OperatorTokenizer.handleNotOperator`. -/
@[simp] def tkHandleNot (st : TokState) : TokState :=
  let p := tkMatch '=' st
  if p.1 then
    let q := tkMatch '=' p.2
    if q.1 then tkAddToken .STRICT_NOT_EQUAL .nullL q.2
    else tkAddToken .NOT_EQUAL .nullL q.2
  else tkAddToken .NOT .nullL p.2

/-- `OperatorTokenizer.handleGreaterThan`. -/
@[simp] def tkHandleGreater (st : TokState) : TokState :=
  let p := tkMatch '=' st
  if p.1 then tkAddToken .GREATER_EQUAL .nullL p.2 else tkAddToken .GREATER .nullL p.2

/-- `OperatorTokenizer.handleLessThan`. -/
@[simp] def tkHandleLess (st : TokState) : TokState :=
  let p := tkMatch '=' st
  if p.1 then tkAddToken .LESS_EQUAL .nullL p.2 else tkAddToken .LESS .nullL p.2

/-- `Tokenizer.handleOpeningBrace`. -/
@[simp] def tkHandleOpeningBrace (st : TokState) : TokState :=
  let p := tkMatch '\x7b' st
  if p.1 then
    { tkAddToken .DOUBLE_BRACE_OPEN .nullL p.2 with isInExpression := true }
  else if p.2.isInExpression then
    tkAddToken .LBRACE .nullL { p.2 with braceCount := p.2.braceCount + 1 }
  else p.2

/-- `Tokenizer.handleClosingBrace`. -/
@[simp] def tkHandleClosingBrace (st : TokState) : TokState :=
  if st.braceCount > 0 then
    tkAddToken .RBRACE .nullL { st with braceCount := st.braceCount - 1 }
  else
    let p := tkMatch '\x7d' st
    if p.1 then
      { tkAddToken .DOUBLE_BRACE_CLOSE .nullL p.2 with isInExpression := false }
    else p.2

/-- `Tokenizer.scanToken`: the expression-mode dispatch switch. -/
def tkScanToken (fuel : Nat) (st : TokState) : Except String TokState :=
  let p := tkAdvance st
  let c := p.1
  let st1 := p.2
  if c = '\x7b' then .ok (tkHandleOpeningBrace st1)
  else if c = '\x7d' then .ok (tkHandleClosingBrace st1)
  else if c = '@' then tkHandleAtSymbol st1
  else if c = '#' then tkHandleTag fuel st1
  else if c = '/' then tkHandleSlash fuel st1
  else if c = '(' then .ok (tkAddToken .LPAREN .nullL st1)
  else if c = ')' then .ok (tkAddToken .RPAREN .nullL st1)
  else if c = '[' then .ok (tkAddToken .LBRACKET .nullL st1)
  else if c = ']' then .ok (tkAddToken .RBRACKET .nullL st1)
  else if c = '.' then .ok (tkAddToken .DOT .nullL st1)
  else if c = ',' then .ok (tkAddToken .COMMA .nullL st1)
  else if c = '+' then .ok (tkAddToken .PLUS .nullL st1)
  else if c = '-' then .ok (tkAddToken .MINUS .nullL st1)
  else if c = '*' then
    .ok (let q := tkMatch '*' st1
         if q.1 then tkAddToken .POWER .nullL q.2 else tkAddToken .MULTIPLY .nullL q.2)
  else if c = '%' then .ok (tkAddToken .MODULO .nullL st1)
  else if c = '&' then .ok (tkHandleAnd st1)
  else if c = '|' then .ok (tkHandleOr st1)
  else if c = '=' then .ok (tkHandleEquality st1)
  else if c = '!' then .ok (tkHandleNot st1)
  else if c = '>' then .ok (tkHandleGreater st1)
  else if c = '<' then .ok (tkHandleLess st1)
  else if c = '"' ∨ c = '\'' ∨ c = '`' then tkString fuel c st1
  else if c = ' ' ∨ c = '\r' ∨ c = '\t' ∨ c = '\n' then .ok st1
  else if c = '?' then .ok (tkAddToken .QUESTION .nullL st1)
  else if c = ':' then .ok (tkAddToken .COLON .nullL st1)
  else if isDigitC c then .ok (tkNumber fuel st1)
  else if isAlphaC c then .ok (tkIdentifier fuel st1)
  else .error ("Unexpected character: " ++ String.mk [c] ++ " at position " ++
               toString st1.position)

/-- The text-accumulation loop of `Tokenizer.scanText`: advance until a
`{{` lookahead or end of input. -/
def tkTextLoop : Nat → TokState → TokState
  | 0, st => st
  | fuel + 1, st =>
      if tkIsAtEnd st then st
      else if tkPeek st = '\x7b' ∧ tkPeekNext st = '\x7b' then st
      else tkTextLoop fuel (tkAdvance st).2

/-- `Tokenizer.scanText`: flush accumulated text as a `STRING` token,
reset `start`, then process the `{{` if one stopped the scan. -/
def tkScanText (fuel : Nat) (st : TokState) : Except String TokState :=
  let st1 := tkTextLoop fuel st
  let st2 :=
    if st1.start < st1.current then
      tkAddToken .STRING (.strL (substrRange st1.source st1.start st1.current)) st1
    else st1
  let st3 := { st2 with start := st2.current }
  if ¬ tkIsAtEnd st3 then tkScanToken fuel st3 else .ok st3

/-- The `while` of `Tokenizer.scanTokens`, followed by the `EOF` token. -/
def tkScanLoop : Nat → TokState → Except String (List Token)
  | 0, st => .error ("tokenizer fuel exhausted at position " ++ toString st.position)
  | fuel + 1, st =>
      if tkIsAtEnd st then
        .ok (st.tokens ++ [⟨.EOFT, "", .nullL, st.position⟩])
      else
        let st1 := { st with start := st.current }
        match (if ¬ st1.isInExpression then tkScanText fuel st1 else tkScanToken fuel st1) with
        | .error e => .error e
        | .ok st2 => tkScanLoop fuel st2

/-- `Tokenizer.scanTokens` over a source string. -/
def tokenize (source : String) : Except String (List Token) :=
  tkScanLoop (source.length + 2)
    { source := source.data, tokens := [], start := 0, current := 0,
      position := 0, isInExpression := false, braceCount := 0 }

/-! ## Parser

`src/core/STE/parser`: `Parser.js` (with `ParserState`),
`BaseParser.js`, `ExpressionParser.js`, `StatementParser.js`.  The
recursive-descent functions take explicit fuel (the source's recursion
is bounded by the token list; a construct that would loop forever in the
source — e.g. a malformed conditional — exhausts the fuel instead). -/

/-- `ParserState` in `Parser.js`. -/
structure PState where
  tokens : List Token
  current : Nat
  parsingInclude : Bool
  parsingSetValue : Bool
  isInObjectLiteral : Bool

/-- Placeholder used for (guarded-away) out-of-range token access. -/
@[simp] def eofTok : Token := ⟨.EOFT, "", .nullL, 0⟩

/-- `BaseParser.peek`. -/
@[simp] def pPeek (ps : PState) : Token :=
  (ps.tokens.get? ps.current).getD eofTok

/-- `BaseParser.previous`. -/
@[simp] def pPrev (ps : PState) : Token :=
  (ps.tokens.get? (ps.current - 1)).getD eofTok

/-- `BaseParser.isAtEnd`. -/
@[simp] def pIsAtEnd (ps : PState) : Bool :=
  (pPeek ps).type = .EOFT

/-- `BaseParser.advance` (the consumed token is read back via
`previous`). -/
@[simp] def pAdvance (ps : PState) : PState :=
  if ¬ pIsAtEnd ps then { ps with current := ps.current + 1 } else ps

/-- `BaseParser.check`. -/
@[simp] def pCheck (t : TokType) (ps : PState) : Bool :=
  ¬ pIsAtEnd ps ∧ (pPeek ps).type = t

/-- `BaseParser.match` with a single type. -/
@[simp] def pMatch (t : TokType) (ps : PState) : Bool × PState :=
  if pCheck t ps then (true, pAdvance ps) else (false, ps)

/-- `BaseParser.match` over several types. -/
@[simp] def pMatchAny (ts : List TokType) (ps : PState) : Bool × PState :=
  match ts with
  | [] => (false, ps)
  | t :: rest => if pCheck t ps then (true, pAdvance ps) else pMatchAny rest ps

/-- `BaseParser.consume`. -/
@[simp] def pConsume (t : TokType) (msg : String) (ps : PState) :
    Except String (Token × PState) :=
  if pCheck t ps then .ok (pPeek ps, pAdvance ps)
  else .error (msg ++ " at position " ++ toString (pPeek ps).position)

/-- The string content of a token's literal slot (`""` for the `null`
and numeric cases, which the call sites never hit). -/
@[simp] def TokLit.asString : TokLit → String
  | .strL s => s
  | .numL _ => ""
  | .nullL => ""

/-- A token literal as the `JsValue` the parser stores in a `literal`
node. -/
@[simp] def TokLit.asValue : TokLit → JsValue
  | .strL s => .str s
  | .numL n => .num n
  | .nullL => .null

/-- `StatementParser.checkConditionalEnd`: at a `{{` whose next token is
a closing conditional tag or an `elseif`/`else`. -/
@[simp] def checkConditionalEnd (ps : PState) : Bool :=
  if ¬ pCheck .DOUBLE_BRACE_OPEN ps then false
  else
    match ps.tokens.get? (ps.current + 1) with
    | none => false
    | some nextToken =>
        nextToken.type = .TAG_CONDITIONAL_CLOSE ∨
        (nextToken.type = .TAG_CONDITIONAL ∧
          (nextToken.lit.asString = "elseif" ∨ nextToken.lit.asString = "else"))

/-- `StatementParser.checkEachEnd`. -/
@[simp] def checkEachEnd (eachType : String) (ps : PState) : Bool :=
  if ¬ pCheck .DOUBLE_BRACE_OPEN ps then false
  else
    match ps.tokens.get? (ps.current + 1) with
    | none => false
    | some nextToken =>
        nextToken.type = .TAG_EACH_CLOSE ∧ nextToken.lit.asString = eachType

mutual

/-- `ExpressionParser.parseExpression`. -/
def parseExpression (fuel : Nat) (ps : PState) : Except String (Node × PState) :=
  match fuel with
  | 0 => .error "parser fuel exhausted"
  | fuel + 1 => pTernary fuel ps

/-- `ExpressionParser.ternary`. -/
def pTernary (fuel : Nat) (ps : PState) : Except String (Node × PState) :=
  match fuel with
  | 0 => .error "parser fuel exhausted"
  | fuel + 1 =>
      match pLogical fuel ps with
      | .error e => .error e
      | .ok (expr, ps1) =>
          let m := pMatch .QUESTION ps1
          if m.1 then
            match parseExpression fuel m.2 with
            | .error e => .error e
            | .ok (trueExpr, ps2) =>
                match pConsume .COLON "Expect ':' after true branch in ternary operator." ps2 with
                | .error e => .error e
                | .ok (_, ps3) =>
                    match pTernary fuel ps3 with
                    | .error e => .error e
                    | .ok (falseExpr, ps4) =>
                        .ok (.ternary expr trueExpr falseExpr, ps4)
          else .ok (expr, ps1)

/-- `ExpressionParser.logical` (left-associative `&&`/`||` at one
precedence level). -/
def pLogical (fuel : Nat) (ps : PState) : Except String (Node × PState) :=
  match fuel with
  | 0 => .error "parser fuel exhausted"
  | fuel + 1 =>
      match pComparison fuel ps with
      | .error e => .error e
      | .ok (expr, ps1) => pLogicalLoop fuel expr ps1

/-- The `while` of `ExpressionParser.logical`. -/
def pLogicalLoop (fuel : Nat) (expr : Node) (ps : PState) : Except String (Node × PState) :=
  match fuel with
  | 0 => .error "parser fuel exhausted"
  | fuel + 1 =>
      let m := pMatchAny [.AND, .OR] ps
      if m.1 then
        let operator := (pPrev m.2).type
        match pComparison fuel m.2 with
        | .error e => .error e
        | .ok (right, ps1) => pLogicalLoop fuel (.logical operator expr right) ps1
      else .ok (expr, ps)

/-- `ExpressionParser.comparison`. -/
def pComparison (fuel : Nat) (ps : PState) : Except String (Node × PState) :=
  match fuel with
  | 0 => .error "parser fuel exhausted"
  | fuel + 1 =>
      match pAddition fuel ps with
      | .error e => .error e
      | .ok (expr, ps1) => pComparisonLoop fuel expr ps1

/-- The `while` of `ExpressionParser.comparison`. -/
def pComparisonLoop (fuel : Nat) (expr : Node) (ps : PState) :
    Except String (Node × PState) :=
  match fuel with
  | 0 => .error "parser fuel exhausted"
  | fuel + 1 =>
      let m := pMatchAny [.GREATER, .GREATER_EQUAL, .LESS, .LESS_EQUAL,
                          .EQUAL, .NOT_EQUAL, .STRICT_EQUAL, .STRICT_NOT_EQUAL] ps
      if m.1 then
        let operator := (pPrev m.2).type
        match pAddition fuel m.2 with
        | .error e => .error e
        | .ok (right, ps1) => pComparisonLoop fuel (.comparison operator expr right) ps1
      else .ok (expr, ps)

/-- `ExpressionParser.addition`. -/
def pAddition (fuel : Nat) (ps : PState) : Except String (Node × PState) :=
  match fuel with
  | 0 => .error "parser fuel exhausted"
  | fuel + 1 =>
      match pMultiplication fuel ps with
      | .error e => .error e
      | .ok (expr, ps1) => pAdditionLoop fuel expr ps1

/-- The `while` of `ExpressionParser.addition`. -/
def pAdditionLoop (fuel : Nat) (expr : Node) (ps : PState) :
    Except String (Node × PState) :=
  match fuel with
  | 0 => .error "parser fuel exhausted"
  | fuel + 1 =>
      let m := pMatchAny [.PLUS, .MINUS] ps
      if m.1 then
        let operator := (pPrev m.2).type
        match pMultiplication fuel m.2 with
        | .error e => .error e
        | .ok (right, ps1) => pAdditionLoop fuel (.binary operator expr right) ps1
      else .ok (expr, ps)

/-- `ExpressionParser.multiplication`. -/
def pMultiplication (fuel : Nat) (ps : PState) : Except String (Node × PState) :=
  match fuel with
  | 0 => .error "parser fuel exhausted"
  | fuel + 1 =>
      match pUnary fuel ps with
      | .error e => .error e
      | .ok (expr, ps1) => pMultiplicationLoop fuel expr ps1

/-- The `while` of `ExpressionParser.multiplication`. -/
def pMultiplicationLoop (fuel : Nat) (expr : Node) (ps : PState) :
    Except String (Node × PState) :=
  match fuel with
  | 0 => .error "parser fuel exhausted"
  | fuel + 1 =>
      let m := pMatchAny [.MULTIPLY, .DIVIDE, .MODULO, .POWER] ps
      if m.1 then
        let operator := (pPrev m.2).type
        match pUnary fuel m.2 with
        | .error e => .error e
        | .ok (right, ps1) => pMultiplicationLoop fuel (.binary operator expr right) ps1
      else .ok (expr, ps)

/-- `ExpressionParser.unary`. -/
def pUnary (fuel : Nat) (ps : PState) : Except String (Node × PState) :=
  match fuel with
  | 0 => .error "parser fuel exhausted"
  | fuel + 1 =>
      let m := pMatchAny [.MINUS, .NOT] ps
      if m.1 then
        let operator := (pPrev m.2).type
        match pUnary fuel m.2 with
        | .error e => .error e
        | .ok (right, ps1) => .ok (.unary operator right, ps1)
      else pPrimary fuel ps

/-- `ExpressionParser.primary`. -/
def pPrimary (fuel : Nat) (ps : PState) : Except String (Node × PState) :=
  match fuel with
  | 0 => .error "parser fuel exhausted"
  | fuel + 1 =>
      let mStr := pMatch .STRING ps
      if mStr.1 then
        let previousToken := pPrev mStr.2
        let value := previousToken.lit.asString
        let lexeme := previousToken.lexeme
        let wasQuoted := jsStartsWith lexeme "\"" ∨ jsStartsWith lexeme "'"
        let mPipe := pMatch .PIPE_FILTER mStr.2
        if mPipe.1 then pParseFilter fuel (.literal (.str value)) mPipe.2
        else if wasQuoted ∧ mStr.2.parsingSetValue then
          .ok (.literal (.str value), mStr.2)
        else if wasQuoted ∧ mStr.2.isInObjectLiteral then
          .ok (.literal (.str value), mStr.2)
        else if wasQuoted ∧ ¬ mStr.2.parsingInclude ∧ strContains value "." then
          .ok (.var value, mStr.2)
        else .ok (.literal (.str value), mStr.2)
      else
        let mNum := pMatch .NUMBER ps
        if mNum.1 then .ok (.literal ((pPrev mNum.2).lit.asValue), mNum.2)
        else
          let mTrue := pMatch .TRUE ps
          if mTrue.1 then .ok (.literal (.bool true), mTrue.2)
          else
            let mFalse := pMatch .FALSE ps
            if mFalse.1 then .ok (.literal (.bool false), mFalse.2)
            else
              let mBr := pMatch .LBRACKET ps
              if mBr.1 then pArray fuel mBr.2
              else
                let mBc := pMatch .LBRACE ps
                if mBc.1 then pObject fuel mBc.2
                else
                  let mPar := pMatch .LPAREN ps
                  if mPar.1 then
                    match parseExpression fuel mPar.2 with
                    | .error e => .error e
                    | .ok (expr, ps1) =>
                        match pConsume .RPAREN "Expect ')' after expression." ps1 with
                        | .error e => .error e
                        | .ok (_, ps2) => .ok (.grouping expr, ps2)
                  else
                    let mRaw := pMatch .RAW_HTML ps
                    if mRaw.1 then
                      -- note: the lexeme (with the leading `#`) is used
                      .ok (.rawHtml (pPrev mRaw.2).lexeme, mRaw.2)
                    else
                      let mId := pMatch .IDENTIFIER ps
                      if mId.1 then
                        let expr := Node.var (pPrev mId.2).lexeme
                        match pAccessChain fuel expr mId.2 with
                        | .error e => .error e
                        | .ok (expr1, ps1) =>
                            let mPipe2 := pMatch .PIPE_FILTER ps1
                            if mPipe2.1 then pParseFilter fuel expr1 mPipe2.2
                            else .ok (expr1, ps1)
                      else
                        .error ("Unexpected token: " ++ (pPeek ps).lexeme ++
                                " at position " ++ toString (pPeek ps).position)

/-- The `.prop` / `[computed]` access chain after an identifier in
`ExpressionParser.primary`. -/
def pAccessChain (fuel : Nat) (expr : Node) (ps : PState) :
    Except String (Node × PState) :=
  match fuel with
  | 0 => .error "parser fuel exhausted"
  | fuel + 1 =>
      let m := pMatchAny [.DOT, .LBRACKET] ps
      if m.1 then
        let access := (pPrev m.2).type
        if access = .DOT then
          match pConsume .IDENTIFIER "Expect property name after '.'" m.2 with
          | .error e => .error e
          | .ok (nameTok, ps1) =>
              pAccessChain fuel (.property expr nameTok.lexeme) ps1
        else
          let mStr := pMatch .STRING m.2
          if mStr.1 then
            let index := Node.literal (.str ((pPrev mStr.2).lit.asString))
            match pConsume .RBRACKET "Expect ']' after property access" mStr.2 with
            | .error e => .error e
            | .ok (_, ps1) => pAccessChain fuel (.computedProperty expr index) ps1
          else
            match parseExpression fuel m.2 with
            | .error e => .error e
            | .ok (index, ps1) =>
                match pConsume .RBRACKET "Expect ']' after property access" ps1 with
                | .error e => .error e
                | .ok (_, ps2) => pAccessChain fuel (.computedProperty expr index) ps2
      else .ok (expr, ps)

/-- `ExpressionParser.array`. -/
def pArray (fuel : Nat) (ps : PState) : Except String (Node × PState) :=
  match fuel with
  | 0 => .error "parser fuel exhausted"
  | fuel + 1 =>
      if ¬ pCheck .RBRACKET ps then
        match pArrayElems fuel ps with
        | .error e => .error e
        | .ok (elems, ps1) =>
            match pConsume .RBRACKET "Expect ']' after array elements." ps1 with
            | .error e => .error e
            | .ok (_, ps2) => .ok (.arrayLit elems, ps2)
      else
        match pConsume .RBRACKET "Expect ']' after array elements." ps with
        | .error e => .error e
        | .ok (_, ps1) => .ok (.arrayLit [], ps1)

/-- The do-while element loop of `ExpressionParser.array`. -/
def pArrayElems (fuel : Nat) (ps : PState) : Except String (List Node × PState) :=
  match fuel with
  | 0 => .error "parser fuel exhausted"
  | fuel + 1 =>
      match parseExpression fuel ps with
      | .error e => .error e
      | .ok (elem, ps1) =>
          let m := pMatch .COMMA ps1
          if m.1 then
            match pArrayElems fuel m.2 with
            | .error e => .error e
            | .ok (rest, ps2) => .ok (elem :: rest, ps2)
          else .ok ([elem], ps1)

/-- `ExpressionParser.object`: sets `isInObjectLiteral` around the
property list (reset before consuming the closing brace). -/
def pObject (fuel : Nat) (ps : PState) : Except String (Node × PState) :=
  match fuel with
  | 0 => .error "parser fuel exhausted"
  | fuel + 1 =>
      let ps0 := { ps with isInObjectLiteral := true }
      if ¬ pCheck .RBRACE ps0 then
        match pObjectProps fuel [] ps0 with
        | .error e => .error e
        | .ok (props, ps1) =>
            let ps2 := { ps1 with isInObjectLiteral := false }
            match pConsume .RBRACE "Expect '\x7d' after object literal" ps2 with
            | .error e => .error e
            | .ok (_, ps3) => .ok (.objectLit props, ps3)
      else
        let ps2 := { ps0 with isInObjectLiteral := false }
        match pConsume .RBRACE "Expect '\x7d' after object literal" ps2 with
        | .error e => .error e
        | .ok (_, ps3) => .ok (.objectLit [], ps3)

/-- The do-while property loop of `ExpressionParser.object` (`Map.set`
semantics on duplicate keys). -/
def pObjectProps (fuel : Nat) (acc : List (String × Node)) (ps : PState) :
    Except String (List (String × Node) × PState) :=
  match fuel with
  | 0 => .error "parser fuel exhausted"
  | fuel + 1 =>
      let mStr := pMatch .STRING ps
      let keyRes : Except String (String × PState) :=
        if mStr.1 then .ok ((pPrev mStr.2).lit.asString, mStr.2)
        else
          match pConsume .IDENTIFIER "Expect property name" ps with
          | .error e => .error e
          | .ok (tok, ps1) => .ok (tok.lexeme, ps1)
      match keyRes with
      | .error e => .error e
      | .ok (key, ps1) =>
          match pConsume .COLON "Expect ':' after property name" ps1 with
          | .error e => .error e
          | .ok (_, ps2) =>
              match parseExpression fuel ps2 with
              | .error e => .error e
              | .ok (value, ps3) =>
                  let acc1 := setKey acc key value
                  let m := pMatch .COMMA ps3
                  if m.1 then pObjectProps fuel acc1 m.2
                  else .ok (acc1, ps3)

/-- `ExpressionParser.parseFilter`. -/
def pParseFilter (fuel : Nat) (expression : Node) (ps : PState) :
    Except String (Node × PState) :=
  match fuel with
  | 0 => .error "parser fuel exhausted"
  | fuel + 1 =>
      match pConsume .IDENTIFIER "Expect filter name after '|'" ps with
      | .error e => .error e
      | .ok (nameTok, ps1) =>
          let filterName := nameTok.lexeme
          let mPar := pMatch .LPAREN ps1
          let argsRes : Except String (List Node × PState) :=
            if mPar.1 then
              if ¬ pCheck .RPAREN mPar.2 then
                match pFilterArgs fuel mPar.2 with
                | .error e => .error e
                | .ok (args, ps2) =>
                    match pConsume .RPAREN "Expect ')' after filter arguments" ps2 with
                    | .error e => .error e
                    | .ok (_, ps3) => .ok (args, ps3)
              else
                match pConsume .RPAREN "Expect ')' after filter arguments" mPar.2 with
                | .error e => .error e
                | .ok (_, ps2) => .ok ([], ps2)
            else .ok ([], ps1)
          match argsRes with
          | .error e => .error e
          | .ok (args, ps2) =>
              let filterNode := Node.filter expression filterName args
              let mPipe := pMatch .PIPE_FILTER ps2
              if mPipe.1 then pParseFilter fuel filterNode mPipe.2
              else .ok (filterNode, ps2)

/-- The do-while argument loop of `ExpressionParser.parseFilter`
(strings short-circuit to literals). -/
def pFilterArgs (fuel : Nat) (ps : PState) : Except String (List Node × PState) :=
  match fuel with
  | 0 => .error "parser fuel exhausted"
  | fuel + 1 =>
      let argRes : Except String (Node × PState) :=
        if pCheck .STRING ps then
          let ps1 := pAdvance ps
          .ok (.literal (.str ((pPrev ps1).lit.asString)), ps1)
        else parseExpression fuel ps
      match argRes with
      | .error e => .error e
      | .ok (arg, ps1) =>
          let m := pMatch .COMMA ps1
          if m.1 then
            match pFilterArgs fuel m.2 with
            | .error e => .error e
            | .ok (rest, ps2) => .ok (arg :: rest, ps2)
          else .ok ([arg], ps1)

/-- `StatementParser.parseSet` (plain-name form).  The source also
parses an optional `.prop` / `[expr]` chain into `propertyChain`; a set
with a property chain is outside the modelled fragment (no claim
involves one) and reported as an explicit modelling-boundary error. -/
def pParseSet (fuel : Nat) (ps : PState) : Except String (Node × PState) :=
  match fuel with
  | 0 => .error "parser fuel exhausted"
  | fuel + 1 =>
      match pConsume .IDENTIFIER "Expect variable name after #set" ps with
      | .error e => .error e
      | .ok (nameTok, ps1) =>
          if pCheck .DOT ps1 ∨ pCheck .LBRACKET ps1 then
            .error "set property chains are outside the modelled fragment"
          else
            match pConsume .EQUAL "Expect '=' after variable name in set" ps1 with
            | .error e => .error e
            | .ok (_, ps2) =>
                let ps3 := { ps2 with parsingSetValue := true }
                match parseExpression fuel ps3 with
                | .error e => .error e
                | .ok (value, ps4) =>
                    let ps5 := { ps4 with parsingSetValue := false }
                    let mPipe := pMatch .PIPE_FILTER ps5
                    let valueRes : Except String (Node × PState) :=
                      if mPipe.1 then pParseFilter fuel value mPipe.2
                      else .ok (value, ps5)
                    match valueRes with
                    | .error e => .error e
                    | .ok (value1, ps6) =>
                        match pConsume .DOUBLE_BRACE_CLOSE
                            "Expect '\x7d\x7d' after set expression" ps6 with
                        | .error e => .error e
                        | .ok (_, ps7) =>
                            .ok (.set nameTok.lexeme value1, ps7)

/-- `StatementParser.parseConditional`. -/
def pParseConditional (fuel : Nat) (ps : PState) : Except String (Node × PState) :=
  match fuel with
  | 0 => .error "parser fuel exhausted"
  | fuel + 1 =>
      let startConditionType := (pPrev ps).lit.asString
      if ¬ (startConditionType = "if" ∨ startConditionType = "not") then
        .error ("Unexpected conditional type: " ++ startConditionType ++
                ". Expected 'if' or 'not'")
      else
        match parseExpression fuel ps with
        | .error e => .error e
        | .ok (condition0, ps1) =>
            let mPipe := pMatch .PIPE_FILTER ps1
            let condRes : Except String (Node × PState) :=
              if mPipe.1 then pParseFilter fuel condition0 mPipe.2
              else .ok (condition0, ps1)
            match condRes with
            | .error e => .error e
            | .ok (condition, ps2) =>
                match pConsume .DOUBLE_BRACE_CLOSE "Expect '\x7d\x7d' after condition." ps2 with
                | .error e => .error e
                | .ok (_, ps3) =>
                    match pParseConditionalBody fuel [] ps3 with
                    | .error e => .error e
                    | .ok (body, ps4) =>
                        if startConditionType = "not" then
                          let m := pMatch .DOUBLE_BRACE_OPEN ps4
                          let ps5 := m.2
                          if (pPeek ps5).type = .TAG_CONDITIONAL_CLOSE ∧
                              (pPeek ps5).lit.asString = "not" then
                            let ps6 := pAdvance ps5
                            match pConsume .DOUBLE_BRACE_CLOSE
                                "Expect '\x7d\x7d' after closing not tag" ps6 with
                            | .error e => .error e
                            | .ok (_, ps7) =>
                                .ok (.conditional "not" condition body [], ps7)
                          else .error "Expected closing not tag"
                        else
                          match pAlternatesLoop fuel [] ps4 with
                          | .error e => .error e
                          | .ok (alternates, ps5) =>
                              .ok (.conditional "if" condition body alternates, ps5)

/-- The alternate (`elseif`/`else`) loop of
`StatementParser.parseConditional`. -/
def pAlternatesLoop (fuel : Nat)
    (acc : List (String × Option Node × List Node)) (ps : PState) :
    Except String (List (String × Option Node × List Node) × PState) :=
  match fuel with
  | 0 => .error "parser fuel exhausted"
  | fuel + 1 =>
      let m := pMatch .DOUBLE_BRACE_OPEN ps
      if ¬ m.1 then .ok (acc, ps)
      else
        let ps1 := m.2
        if (pPeek ps1).type = .TAG_CONDITIONAL_CLOSE then
          let ps2 := pAdvance ps1
          match pConsume .DOUBLE_BRACE_CLOSE "Expect '\x7d\x7d' after closing tag" ps2 with
          | .error e => .error e
          | .ok (_, ps3) => .ok (acc, ps3)
        else
          let mc := pMatch .TAG_CONDITIONAL ps1
          if mc.1 then
            let alternateType := (pPrev mc.2).lit.asString
            if alternateType = "elseif" then
              match parseExpression fuel mc.2 with
              | .error e => .error e
              | .ok (elseifCondition, ps2) =>
                  match pConsume .DOUBLE_BRACE_CLOSE
                      "Expect '\x7d\x7d' after elseif condition." ps2 with
                  | .error e => .error e
                  | .ok (_, ps3) =>
                      match pParseConditionalBody fuel [] ps3 with
                      | .error e => .error e
                      | .ok (elseifBody, ps4) =>
                          pAlternatesLoop fuel
                            (acc ++ [("elseif", some elseifCondition, elseifBody)]) ps4
            else if alternateType = "else" then
              match pConsume .DOUBLE_BRACE_CLOSE "Expect '\x7d\x7d' after else." mc.2 with
              | .error e => .error e
              | .ok (_, ps2) =>
                  match pParseConditionalBody fuel [] ps2 with
                  | .error e => .error e
                  | .ok (elseBody, ps3) =>
                      let acc1 := acc ++ [("else", none, elseBody)]
                      let m2 := pMatch .DOUBLE_BRACE_OPEN ps3
                      let ps4 := m2.2
                      if (pPeek ps4).type = .TAG_CONDITIONAL_CLOSE then
                        let ps5 := pAdvance ps4
                        match pConsume .DOUBLE_BRACE_CLOSE
                            "Expect '\x7d\x7d' after closing tag" ps5 with
                        | .error e => .error e
                        | .ok (_, ps6) => .ok (acc1, ps6)
                      else .error "Expected closing tag after else block"
            else pAlternatesLoop fuel acc mc.2
          else pAlternatesLoop fuel acc ps1

/-- `StatementParser.parseConditionalBody`. -/
def pParseConditionalBody (fuel : Nat) (acc : List Node) (ps : PState) :
    Except String (List Node × PState) :=
  match fuel with
  | 0 => .error "parser fuel exhausted"
  | fuel + 1 =>
      if checkConditionalEnd ps then .ok (acc, ps)
      else if pIsAtEnd ps then .error "Unterminated conditional statement"
      else
        let mStr := pMatch .STRING ps
        if mStr.1 then
          pParseConditionalBody fuel
            (acc ++ [.literal (.str ((pPrev mStr.2).lit.asString))]) mStr.2
        else
          let mOpen := pMatch .DOUBLE_BRACE_OPEN ps
          if mOpen.1 then
            let ps1 := mOpen.2
            let mEach := pMatch .TAG_EACH ps1
            if mEach.1 then
              match pParseEach fuel mEach.2 with
              | .error e => .error e
              | .ok (n, ps2) => pParseConditionalBody fuel (acc ++ [n]) ps2
            else
              let mSet := pMatch .TAG_SET ps1
              if mSet.1 then
                match pParseSet fuel mSet.2 with
                | .error e => .error e
                | .ok (n, ps2) => pParseConditionalBody fuel (acc ++ [n]) ps2
              else
                let mInc := pMatch .TAG_INCLUDE ps1
                if mInc.1 then
                  match pParseInclude fuel mInc.2 with
                  | .error e => .error e
                  | .ok (n, ps2) => pParseConditionalBody fuel (acc ++ [n]) ps2
                else
                  let mRaw := pMatch .RAW_HTML ps1
                  if mRaw.1 then
                    let n := Node.rawHtml
                      (jsReplaceFirst ((pPrev mRaw.2).lit.asString) "#" "")
                    match pConsume .DOUBLE_BRACE_CLOSE
                        "Expect '\x7d\x7d' after html variable" mRaw.2 with
                    | .error e => .error e
                    | .ok (_, ps2) => pParseConditionalBody fuel (acc ++ [n]) ps2
                  else if pCheck .TAG_CONDITIONAL ps1 ∧
                      ¬ ((pPeek ps1).lit.asString = "elseif" ∨
                         (pPeek ps1).lit.asString = "else" ∨
                         (pPeek ps1).lit.asString = "/if") then
                    let ps2 := pAdvance ps1
                    match pParseConditional fuel ps2 with
                    | .error e => .error e
                    | .ok (n, ps3) => pParseConditionalBody fuel (acc ++ [n]) ps3
                  else
                    match parseExpression fuel ps1 with
                    | .error e => .error e
                    | .ok (expr, ps2) =>
                        match pConsume .DOUBLE_BRACE_CLOSE
                            "Expect '\x7d\x7d' after expression." ps2 with
                        | .error e => .error e
                        | .ok (_, ps3) =>
                            pParseConditionalBody fuel (acc ++ [.expression expr]) ps3
          else pParseConditionalBody fuel acc ps

/-- `StatementParser.parseEach`. -/
def pParseEach (fuel : Nat) (ps : PState) : Except String (Node × PState) :=
  match fuel with
  | 0 => .error "parser fuel exhausted"
  | fuel + 1 =>
      let eachType := (pPrev ps).lit.asString
      match parseExpression fuel ps with
      | .error e => .error e
      | .ok (iterableExpr, ps1) =>
          match pConsume .DOUBLE_BRACE_CLOSE "Expect '\x7d\x7d' after each expression." ps1 with
          | .error e => .error e
          | .ok (_, ps2) =>
              match pParseEachBody fuel eachType [] ps2 with
              | .error e => .error e
              | .ok (body, ps3) => .ok (.each eachType iterableExpr body, ps3)

/-- `StatementParser.parseEachBody` (with the closing-tag consumption at
the end). -/
def pParseEachBody (fuel : Nat) (eachType : String) (acc : List Node) (ps : PState) :
    Except String (List Node × PState) :=
  match fuel with
  | 0 => .error "parser fuel exhausted"
  | fuel + 1 =>
      if checkEachEnd eachType ps then
        let m := pMatch .DOUBLE_BRACE_OPEN ps
        match pConsume .TAG_EACH_CLOSE ("Expect closing tag for " ++ eachType) m.2 with
        | .error e => .error e
        | .ok (_, ps1) =>
            match pConsume .DOUBLE_BRACE_CLOSE "Expect '\x7d\x7d' after closing each tag" ps1 with
            | .error e => .error e
            | .ok (_, ps2) => .ok (acc, ps2)
      else if pIsAtEnd ps then
        .error ("Unterminated each loop. Expected \x7b\x7b/" ++ eachType ++ "\x7d\x7d")
      else
        let mStr := pMatch .STRING ps
        if mStr.1 then
          pParseEachBody fuel eachType
            (acc ++ [.literal (.str ((pPrev mStr.2).lit.asString))]) mStr.2
        else
          let mOpen := pMatch .DOUBLE_BRACE_OPEN ps
          if mOpen.1 then
            let ps1 := mOpen.2
            let mIdx := pMatch .AT_INDEX ps1
            if mIdx.1 then
              match pConsume .DOUBLE_BRACE_CLOSE "Expect '\x7d\x7d' after @index" mIdx.2 with
              | .error e => .error e
              | .ok (_, ps2) => pParseEachBody fuel eachType (acc ++ [.indexRef]) ps2
            else
              let mKey := pMatch .AT_KEY ps1
              if mKey.1 then
                match pConsume .DOUBLE_BRACE_CLOSE "Expect '\x7d\x7d' after @key" mKey.2 with
                | .error e => .error e
                | .ok (_, ps2) => pParseEachBody fuel eachType (acc ++ [.keyRef]) ps2
              else
                let mThis := pMatch .THIS ps1
                if mThis.1 then
                  match pConsume .DOUBLE_BRACE_CLOSE "Expect '\x7d\x7d' after this" mThis.2 with
                  | .error e => .error e
                  | .ok (_, ps2) => pParseEachBody fuel eachType (acc ++ [.thisRef]) ps2
                else
                  let mEach := pMatch .TAG_EACH ps1
                  if mEach.1 then
                    match pParseEach fuel mEach.2 with
                    | .error e => .error e
                    | .ok (n, ps2) => pParseEachBody fuel eachType (acc ++ [n]) ps2
                  else
                    match parseExpression fuel ps1 with
                    | .error e => .error e
                    | .ok (expr, ps2) =>
                        match pConsume .DOUBLE_BRACE_CLOSE
                            "Expect '\x7d\x7d' after expression." ps2 with
                        | .error e => .error e
                        | .ok (_, ps3) =>
                            pParseEachBody fuel eachType (acc ++ [.expression expr]) ps3
          else pParseEachBody fuel eachType acc ps

/-- `StatementParser.parseInclude`. -/
def pParseInclude (fuel : Nat) (ps : PState) : Except String (Node × PState) :=
  match fuel with
  | 0 => .error "parser fuel exhausted"
  | fuel + 1 =>
      match pConsume .LPAREN "Expect '(' after #include" ps with
      | .error e => .error e
      | .ok (_, ps1) =>
          let ps2 := { ps1 with parsingInclude := true }
          match parseExpression fuel ps2 with
          | .error e => .error e
          | .ok (path, ps3) =>
              let ps4 := { ps3 with parsingInclude := false }
              match pConsume .RPAREN "Expect ')' after include path" ps4 with
              | .error e => .error e
              | .ok (_, ps5) =>
                  match pConsume .DOUBLE_BRACE_CLOSE
                      "Expect '\x7d\x7d' after include expression" ps5 with
                  | .error e => .error e
                  | .ok (_, ps6) => .ok (.includeNode path, ps6)

end

/-- `Parser.parseStatement`: the `{{`-dispatch; a lone closing
conditional tag produces no statement (the source returns `null`, which
is pushed into the statement list — modelled as `Node.nullNode`). -/
def pParseStatement (fuel : Nat) (ps : PState) : Except String (Option Node × PState) :=
  let mSet := pMatch .TAG_SET ps
  if mSet.1 then (pParseSet fuel mSet.2).map (fun p => (some p.1, p.2))
  else
    let mEach := pMatch .TAG_EACH ps
    if mEach.1 then (pParseEach fuel mEach.2).map (fun p => (some p.1, p.2))
    else
      let mInc := pMatch .TAG_INCLUDE ps
      if mInc.1 then (pParseInclude fuel mInc.2).map (fun p => (some p.1, p.2))
      else
        let mCond := pMatch .TAG_CONDITIONAL ps
        if mCond.1 then (pParseConditional fuel mCond.2).map (fun p => (some p.1, p.2))
        else if (pPeek ps).type = .TAG_CONDITIONAL_CLOSE then
          let ps1 := pAdvance ps
          match pConsume .DOUBLE_BRACE_CLOSE "Expect '\x7d\x7d' after closing tag" ps1 with
          | .error e => .error e
          | .ok (_, ps2) => .ok (none, ps2)
        else
          match parseExpression fuel ps with
          | .error e => .error e
          | .ok (expr, ps1) =>
              match pConsume .DOUBLE_BRACE_CLOSE "Expect '\x7d\x7d' after expression." ps1 with
              | .error e => .error e
              | .ok (_, ps2) => .ok (some (.expression expr), ps2)

/-- The top-level loop of `Parser.parse`.  A `null` statement (see
`pParseStatement`) is pushed into the body as the source pushes `null`
into its statements array. -/
def pParseTop (fuel : Nat) (acc : List Node) (ps : PState) : Except String Node :=
  match fuel with
  | 0 => .error "parser fuel exhausted"
  | fuel + 1 =>
      if pIsAtEnd ps then .ok (.template acc)
      else
        let mStr := pMatch .STRING ps
        if mStr.1 then
          pParseTop fuel (acc ++ [.literal (.str ((pPrev mStr.2).lit.asString))]) mStr.2
        else
          let mRaw := pMatch .RAW_HTML ps
          if mRaw.1 then
            pParseTop fuel (acc ++ [.rawHtml ((pPrev mRaw.2).lit.asString)]) mRaw.2
          else
            let mOpen := pMatch .DOUBLE_BRACE_OPEN ps
            if mOpen.1 then
              match pParseStatement fuel mOpen.2 with
              | .error e => .error e
              | .ok (some n, ps1) => pParseTop fuel (acc ++ [n]) ps1
              | .ok (none, ps1) => pParseTop fuel (acc ++ [.nullNode]) ps1
            else
              .error ("Unexpected token: " ++ toString (repr (pPeek ps).type) ++
                      " at position " ++ toString (pPeek ps).position)

/-- `Parser.parse` over a token list. -/
def parseTokens (toks : List Token) : Except String Node :=
  pParseTop (16 * toks.length + 64) []
    { tokens := toks, current := 0, parsingInclude := false,
      parsingSetValue := false, isInObjectLiteral := false }

/-- `STE.#processExpressions`: tokenize → parse → evaluate. -/
def processExpressions (source : String) (data : List (String × JsValue)) :
    Except String String :=
  match tokenize source with
  | .error e => .error e
  | .ok toks =>
      match parseTokens toks with
      | .error e => .error e
      | .ok ast => evalAst ast data

/-! ## Template-engine facade: path resolution and rendering

`src/core/STE/ste.js`.  Node's `path` functions are modelled with POSIX
semantics (forward-slash separators); the inputs exercised here carry no
trailing slashes, which is the one place `path.posix` has quirks this
model does not reproduce. -/

/-- `s.endsWith(suf)`. -/
@[simp] def strEndsWith (s suf : String) : Bool :=
  charsStartsWith s.data.reverse suf.data.reverse

/-- Split on a separator character (`String.prototype.split` with a
one-character separator). -/
@[simp] def splitSepChars (sep : Char) (cur : List Char) : List Char → List String
  | [] => [⟨cur⟩]
  | c :: rest =>
      if c = sep then ⟨cur⟩ :: splitSepChars sep [] rest
      else splitSepChars sep (cur ++ [c]) rest

/-- `path.split(/[/\\]/)` — split on both slash flavours (used by
`#setRootPrefix` and `#normalizePath`). -/
@[simp] def splitSlashesChars (cur : List Char) : List Char → List String
  | [] => [⟨cur⟩]
  | c :: rest =>
      if c = '/' ∨ c = '\\' then ⟨cur⟩ :: splitSlashesChars [] rest
      else splitSlashesChars (cur ++ [c]) rest

/-- `path.split(/[/\\]/)`. -/
@[simp] def splitSlashes (s : String) : List String :=
  splitSlashesChars [] s.data

/-- Segment normalization of `path.posix.normalize`: drop `""`/`"."`,
fold `".."` into the previous segment where possible (absolute paths
drop excess `".."`, relative paths keep it). -/
@[simp] def normSegs (isAbs : Bool) : List String → List String → List String
  | acc, [] => acc
  | acc, seg :: rest =>
      if seg = "" ∨ seg = "." then normSegs isAbs acc rest
      else if seg = ".." then
        if acc ≠ [] ∧ acc.getLast? ≠ some ".." then normSegs isAbs acc.dropLast rest
        else if isAbs then normSegs isAbs acc rest
        else normSegs isAbs (acc ++ [".."]) rest
      else normSegs isAbs (acc ++ [seg]) rest

/-- `path.posix.normalize` (for trailing-slash-free inputs). -/
@[simp] def pathNormalize (p : String) : String :=
  let isAbs := jsStartsWith p "/"
  let core := String.intercalate "/" (normSegs isAbs [] (splitSepChars '/' [] p.data))
  if isAbs then "/" ++ core
  else if core = "" then "." else core

/-- `path.posix.join` of two pieces: concatenate and normalize. -/
@[simp] def pathJoin (a b : String) : String :=
  if a = "" ∧ b = "" then "."
  else pathNormalize (if a = "" then b else if b = "" then a else a ++ "/" ++ b)

/-- `path.posix.resolve` against an (absolute) working directory. -/
@[simp] def pathResolve (cwd p : String) : String :=
  if jsStartsWith p "/" then pathNormalize p
  else pathNormalize (cwd ++ "/" ++ p)

/-- Index of the last `'/'` in a character list. -/
@[simp] def lastSlashIdx : List Char → Option Nat
  | [] => none
  | c :: rest =>
      match lastSlashIdx rest with
      | some i => some (i + 1)
      | none => if c = '/' then some 0 else none

/-- `path.posix.dirname` (for trailing-slash-free inputs). -/
@[simp] def dirname (p : String) : String :=
  match lastSlashIdx p.data with
  | none => "."
  | some 0 => "/"
  | some i => ⟨p.data.take i⟩

/-- The path-relevant fields of the `STE` facade
(`baseDir`, root-mode flag, the base-path prefix captured from the first
rendered template, the include stack and the current template). -/
structure SteState where
  baseDir : String
  isRootMode : Bool
  basePath : Option (List String)
  includeStack : List String
  currentTemplate : Option String

/-- A fresh facade for a base directory (`isRootMode ↔ baseDir === "./"`,
base path captured lazily). -/
@[simp] def steInit (baseDir : String) : SteState :=
  { baseDir := baseDir, isRootMode := baseDir = "./", basePath := none,
    includeStack := [], currentTemplate := none }

/-- `STE.#setRootPrefix`: on the first template, keep all but the last
two path segments (or nothing for a root-level file). -/
@[simp] def setRootPrefix (st : SteState) (path : String) : SteState :=
  match st.basePath with
  | some _ => st
  | none =>
      let segments := splitSlashes path
      if segments.length > 2 then
        { st with basePath := some (segments.take (segments.length - 2)) }
      else
        { st with basePath := some [] }

/-- The segment-processing fold of `STE.#normalizePath`: `"."`/`""`
skipped, `".."` pops (a no-op on an empty result), others pushed. -/
@[simp] def steNormFold (result : List String) : List String → List String
  | [] => result
  | seg :: rest =>
      if seg = "." ∨ seg = "" then steNormFold result rest
      else if seg = ".." then steNormFold result.dropLast rest
      else steNormFold (result ++ [seg]) rest

/-- `STE.#normalizePath`: paths not starting `./` or `../` get the
captured base path prepended (when its first segment differs — note the
base-path segments are pushed unprocessed, so `".."` entries survive
into the result), then segments are folded. -/
@[simp] def steNormalizePath (st : SteState) (path : String) : String :=
  let segments := splitSlashes path
  let result0 : List String :=
    if ¬ (jsStartsWith path "./") ∧ ¬ (jsStartsWith path "../") then
      match st.basePath with
      | some bp => if segments.head? ≠ bp.head? then bp else []
      | none => []
    else []
  String.intercalate "/" (steNormFold result0 segments)

/-- `STE.#resolvePath` (with the working directory made explicit).  The
`.html` check comes first; `./`/`../` paths resolve against the
including template and are root-checked in root mode; other paths join
the normalized result onto the base directory with no root check. -/
@[simp] def steResolvePath (st : SteState) (cwd filePath : String) :
    Except String String :=
  if ¬ strEndsWith filePath ".html" then
    .error "Invalid file type. Only HTML files are supported."
  else
    let absoluteBaseDir := pathNormalize (pathResolve cwd st.baseDir)
    if jsStartsWith filePath "./" ∨ jsStartsWith filePath "../" then
      let includingTemplate :=
        (st.includeStack.getLast?).getD ((st.currentTemplate).getD "")
      let includingTemplateDir := dirname includingTemplate
      let combinedPath := pathJoin includingTemplateDir filePath
      let normalizedPath := steNormalizePath st combinedPath
      let resolvedPath := pathJoin absoluteBaseDir normalizedPath
      if st.isRootMode then
        let projectRoot := pathResolve cwd "./"
        if ¬ jsStartsWith resolvedPath projectRoot then
          .error "Cannot include files outside of project root"
        else .ok resolvedPath
      else .ok resolvedPath
    else
      let normalizedPath := steNormalizePath st filePath
      .ok (pathJoin absoluteBaseDir normalizedPath)

/-- `STE.#readFile`: resolve, then read through the supplied
file-reading capability; all failures are wrapped as
`File reading failed`.  Resolution happens before any read — an invalid
file type fails for every file system. -/
@[simp] def steReadFile (st : SteState) (cwd : String) (fs : String → Option String)
    (filePath : String) : Except String String :=
  match steResolvePath st cwd filePath with
  | .error e => .error ("File reading failed: " ++ e)
  | .ok resolvedPath =>
      match fs resolvedPath with
      | some content => .ok content
      | none => .error ("File reading failed: no such file " ++ resolvedPath)

/-- The type guard at the top of `StatementEvaluator.evaluateInclude`
(lines 102–103): a non-string include path value is a hard error. -/
@[simp] def includePathGuard (pathValue : JsValue) : Except String String :=
  match pathValue with
  | .str s => .ok s
  | _ => .error "Include path must be a string"

/-- The `html_` preprocessing loop of `STE.renderStringWithoutRestore`
(lines 223–229): each `html_`-prefixed data key not yet in `htmlVars`
gets a fresh marker stored in `htmlVars`, and the data entry itself is
replaced by the marker. -/
@[simp] def processHtmlVars :
    List (String × JsValue) → List (String × String × JsValue) → Nat →
    List (String × JsValue) × List (String × String × JsValue) × Nat
  | [], hv, nid => ([], hv, nid)
  | (key, value) :: rest, hv, nid =>
      if jsStartsWith key "html_" ∧ (hv.lookup key).isNone then
        let marker := "__HTML_" ++ toString nid ++ "__"
        let hv1 := setKey hv key (marker, value)
        let p := processHtmlVars rest hv1 (nid + 1)
        ((key, .str marker) :: p.1, p.2.1, p.2.2)
      else
        let p := processHtmlVars rest hv nid
        ((key, value) :: p.1, p.2.1, p.2.2)

/-- The marker-restore loop at the end of `STE.render` (lines 171–174):
for each stored `html_` variable, `result.replace(marker, value)` — a
plain-string `replace`, so only the first occurrence of each marker is
substituted. -/
@[simp] def restoreHtml (result : String) :
    List (String × String × JsValue) → String
  | [] => result
  | (_, marker, value) :: rest =>
      restoreHtml (jsReplaceFirst result marker (jsToString value)) rest

/-- `STE.render` for an in-memory template source: preprocess `html_`
data keys, run tokenize → parse → evaluate, then restore markers.  (The
file read and include stack are orthogonal to the claims settled on
this definition.) -/
def renderModel (source : String) (data : List (String × JsValue)) :
    Except String String :=
  let p := processHtmlVars data [] 0
  match tokenize source with
  | .error e => .error e
  | .ok toks =>
      match parseTokens toks with
      | .error e => .error e
      | .ok ast =>
          let st0 : EvalState :=
            { globalData := p.1, contextStack := [.globalRef], indexStack := [],
              keyStack := [], htmlVars := p.2.1, nextMarkerId := p.2.2 }
          match evaluateNode ast st0 with
          | (stF, .ok v) => .ok (restoreHtml (jsToString v) stF.htmlVars)
          | (_, .error e) => .error e

/-! ## The standalone conditional preprocessor

`src/core/STE/preprocessConditionals`: `evaluateCondition.js`,
`resolveValue.js` (and the `evaluateSimpleExpression` module it imports,
whose file is not under the current core directory; its operator branch
is embedded from the repository copy).  This helper is the one place
with a swallow-all catch; the AST evaluator does not call it. -/

/-- Leading/trailing-whitespace trim (`String.prototype.trim`). -/
@[simp] def jsTrim (s : String) : String :=
  ⟨(s.data.dropWhile (·.isWhitespace)).reverse.dropWhile (·.isWhitespace) |>.reverse⟩

/-- Does the trimmed string parse as a (decimal, optionally signed,
optionally fractional) number — the complement of `isNaN(value)` for a
string?  (`""` coerces to `0`, hence is not NaN; exponent forms are
outside the modelled numeric grammar.) -/
@[simp] def isNumericStr (s : String) : Bool :=
  let t := (jsTrim s).data
  let t1 := match t with
    | '+' :: rest => rest
    | '-' :: rest => rest
    | _ => t
  let intPart := t1.takeWhile isDigitC
  let rest := t1.drop intPart.length
  if t = [] then true
  else match rest with
    | [] => intPart ≠ []
    | '.' :: frac => (intPart ≠ [] ∨ frac ≠ []) ∧ frac.all isDigitC
    | _ => false

/-- `isNaN(value)` for a string value. -/
@[simp] def jsIsNaNStr (s : String) : Bool := !(isNumericStr s)

/-- `parseFloat(value)` for the (integer-valued) numeric strings the
claims exercise. -/
@[simp] def parseFloatInt (s : String) : Int :=
  let t := (jsTrim s).data
  match t with
  | '-' :: rest => -(digitsToInt (rest.takeWhile isDigitC))
  | '+' :: rest => digitsToInt (rest.takeWhile isDigitC)
  | _ => digitsToInt (t.takeWhile isDigitC)

/-- The key walk of `resolveValue`: `if (result && key in result)`
descends, a falsy `result` returns `undefined`, and `in` on a truthy
primitive throws a `TypeError` (modelled as an error). -/
def resolveValueWalk : JsValue → List String → Except String JsValue
  | v, [] => .ok v
  | v, key :: rest =>
      if ¬ jsTruthy v then .ok .undef
      else if ¬ jsIsObjecty v then
        .error ("Cannot use 'in' operator to search for '" ++ key ++ "'")
      else if jsHasProp v key then resolveValueWalk (jsMemberGet v key) rest
      else .ok (.undef)

/-- `resolveValue` (preprocessConditionals/resolveValue.js): quoted
strings unquote, non-numeric values resolve as dotted keys against the
data object, numeric values parse as numbers. -/
def resolveValue (value : String) (dataObject : List (String × JsValue)) :
    Except String JsValue :=
  if jsIsNaNStr value then
    if (jsStartsWith value "\"" ∧ strEndsWith value "\"") ∨
        (jsStartsWith value "'" ∧ strEndsWith value "'") then
      .ok (.str ⟨(value.data.drop 1).dropLast⟩)
    else
      resolveValueWalk (.obj dataObject) (splitOnDot (jsTrim value))
  else .ok (.num (parseFloatInt value))

/-- `/==|!=|<=|>=|<|>/.test(condition)`. -/
@[simp] def hasLogicalOperator (c : String) : Bool :=
  strContains c "==" ∨ strContains c "!=" ∨ strContains c "<=" ∨
  strContains c ">=" ∨ strContains c "<" ∨ strContains c ">"

/-- One comparison step of `evaluateComparison` on resolved values
(number/number and string/string comparisons; coercing combinations are
outside the modelled value domain — the enclosing catch then yields
`false`, see `evaluateCondition`). -/
@[simp] def evalCompareStrOp (op : String) (l r : JsValue) : Except String Bool :=
  match l, r with
  | .num a, .num b =>
      if op = "==" then .ok (a = b)
      else if op = "!=" then .ok (a ≠ b)
      else if op = "<" then .ok (a < b)
      else if op = ">" then .ok (a > b)
      else if op = "<=" then .ok (a ≤ b)
      else if op = ">=" then .ok (a ≥ b)
      else .ok false
  | .str a, .str b =>
      if op = "==" then .ok (a = b)
      else if op = "!=" then .ok (a ≠ b)
      else if op = "<" then .ok (a < b)
      else if op = ">" then .ok (b < a)
      else if op = "<=" then .ok (¬ b < a)
      else if op = ">=" then .ok (¬ a < b)
      else .ok false
  | _, _ => .error "operand coercion outside the modelled value domain"

/-- `evaluateComparison` (preprocessConditionals/evaluateComparison.js):
resolve both sides (either may throw), then compare. -/
def evaluateComparison (left op right : String)
    (dataObject : List (String × JsValue)) : Except String Bool :=
  match resolveValue left dataObject with
  | .error e => .error e
  | .ok lv =>
      match resolveValue right dataObject with
      | .error e => .error e
      | .ok rv => evalCompareStrOp op lv rv

/-- The lazy split of `expression.match(/(.+?)(==|!=|<=|>=|<|>)(.+)/)`:
the leftmost position (≥ 1 character in, ≥ 1 character remaining) where
an operator from the alternation matches, operators tried in alternation
order. -/
def findComparisonSplit (fuel : Nat) (before : List Char) (s : List Char) :
    Option (String × String × String) :=
  match fuel with
  | 0 => none
  | fuel + 1 =>
      match s with
      | [] => none
      | c :: rest =>
          let here := c :: rest
          let tryOp : Option (String × List Char) :=
            if before ≠ [] then
              if charsStartsWith here "==".data ∧ rest.drop 1 ≠ [] then
                some ("==", rest.drop 1)
              else if charsStartsWith here "!=".data ∧ rest.drop 1 ≠ [] then
                some ("!=", rest.drop 1)
              else if charsStartsWith here "<=".data ∧ rest.drop 1 ≠ [] then
                some ("<=", rest.drop 1)
              else if charsStartsWith here ">=".data ∧ rest.drop 1 ≠ [] then
                some (">=", rest.drop 1)
              else if c = '<' ∧ rest ≠ [] then some ("<", rest)
              else if c = '>' ∧ rest ≠ [] then some (">", rest)
              else none
            else none
          match tryOp with
          | some (op, after) => some (⟨before⟩, op, ⟨after⟩)
          | none => findComparisonSplit fuel (before ++ [c]) rest

/-- Split a string on a two-character separator (`split("&&")`,
`split("||")`). -/
def splitOnPair (sep : Char) (cur : List Char) : List Char → List String
  | [] => [⟨cur⟩]
  | [c] => [⟨cur ++ [c]⟩]
  | c1 :: c2 :: rest =>
      if c1 = sep ∧ c2 = sep then ⟨cur⟩ :: splitOnPair sep [] rest
      else splitOnPair sep (cur ++ [c1]) (c2 :: rest)

/-!
`evaluateSimpleExpression` (the module imported by
`evaluateCondition.js`; the repository copy): `&&`-splits must all hold
(`every`), `||`-splits need one (`some`), a lazy comparison match
compares, and otherwise the bare key's truthiness in the data object
decides. -/
mutual
def evaluateSimpleExpression (fuel : Nat) (expression : String)
    (dataObject : List (String × JsValue)) : Except String Bool :=
  match fuel with
  | 0 => .error "fuel exhausted"
  | fuel + 1 =>
      if strContains expression "&&" then
        eseAll fuel (splitOnPair '&' [] expression.data) dataObject
      else if strContains expression "||" then
        eseAny fuel (splitOnPair '|' [] expression.data) dataObject
      else
        match findComparisonSplit (expression.length + 1) [] expression.data with
        | some (l, op, r) =>
            evaluateComparison (jsTrim l) op (jsTrim r) dataObject
        | none =>
            .ok (jsTruthy ((dataObject.lookup (jsTrim expression)).getD .undef))
termination_by (fuel, 0, 1)
decreasing_by all_goals (simp [Prod.lex_iff]; try omega)

def eseAll (fuel : Nat) (subs : List String)
    (dataObject : List (String × JsValue)) : Except String Bool :=
  match subs with
  | [] => .ok true
  | x :: rest =>
      match evaluateSimpleExpression fuel (jsTrim x) dataObject with
      | .error e => .error e
      | .ok false => .ok false
      | .ok true => eseAll fuel rest dataObject
termination_by (fuel, subs.length, 0)
decreasing_by all_goals (simp [Prod.lex_iff]; try omega)

def eseAny (fuel : Nat) (subs : List String)
    (dataObject : List (String × JsValue)) : Except String Bool :=
  match subs with
  | [] => .ok false
  | x :: rest =>
      match evaluateSimpleExpression fuel (jsTrim x) dataObject with
      | .error e => .error e
      | .ok true => .ok true
      | .ok false => eseAny fuel rest dataObject
termination_by (fuel, subs.length, 0)
decreasing_by all_goals (simp [Prod.lex_iff]; try omega)
end

/-- `evaluateCondition` (preprocessConditionals/evaluateCondition.js):
conditions with a comparison operator go through the simple-expression
evaluator, others resolve and coerce to boolean — and the enclosing
`try`/`catch` turns ANY thrown error into `false` (logged, not
rethrown). -/
def evaluateCondition (condition : String) (dataObject : List (String × JsValue)) :
    Bool :=
  if hasLogicalOperator condition then
    match evaluateSimpleExpression (condition.length + 2) condition dataObject with
    | .ok b => b
    | .error _ => false
  else
    match resolveValue condition dataObject with
    | .ok v => jsTruthy v
    | .error _ => false

/-! ## Claim-level predicates and concrete inputs -/

/-- Equality of the three evaluator stacks between two states (the
invariant behind the `each` push/pop pairing). -/
def Pres (st st' : EvalState) : Prop :=
  st'.contextStack = st.contextStack ∧ st'.indexStack = st.indexStack ∧
  st'.keyStack = st.keyStack

/-- The template source contains no `{{`. -/
@[simp] def noBrace (s : String) : Bool :=
  !(strContains s "\x7b\x7b")

/-- A variable name that resolves neither in the current loop context
nor in global data (each lookup avenue of
`BaseEvaluator.resolveVariable` fails), nor in the engine's `html_`
side table. -/
def UnresolvedName (st : EvalState) (name : String) : Prop :=
  jsHasProp st.currentContext name = false ∧
  (st.globalData.lookup name).isSome = false ∧
  (jsMemberGet st.currentContext name).isUndef = true ∧
  (walkPath st.currentContext (splitOnDot name)).isNone = true ∧
  (walkPath (.obj st.globalData) (splitOnDot name)).isNone = true ∧
  (st.htmlVars.lookup name).isSome = false

/-- `v` is not a JS string. -/
@[simp] def notAString : JsValue → Bool
  | .str _ => false
  | _ => true

/-- Concatenation of the decimal representations of the `n` integers
`i, i+1, …, i+n-1`. -/
@[simp] def idxStrings : Int → Nat → String
  | _, 0 => ""
  | i, n + 1 => toString i ++ idxStrings (i + 1) n

/-- The `each` body exercising `#set`-then-read sibling ordering:
`{{#each items}}{{#set x = 1}}{{x}}{{/each}}`. -/
def c1EachTpl : Node :=
  .template [.each "each" (.var "items")
    [.set "x" (.literal (.num 1)), .expression (.var "x")]]

/-- The same sibling pair at template level:
`{{#set x = 1}}{{x}}`. -/
def c1SeqTpl : Node :=
  .template [.set "x" (.literal (.num 1)), .expression (.var "x")]

/-- One-element array for the `each` counterexample. -/
def c1Data : List (String × JsValue) := [("items", .arr [.num 0])]

/-- `{{#each obj}}{{@key}}{{/each}}` — the mapping-form template that
refers to the current key. -/
def c5Src : String := "\x7b\x7b#each obj\x7d\x7d\x7b\x7b@key\x7d\x7d\x7b\x7b/each\x7d\x7d"

/-- `{{#html_x}}{{#html_x}}` — the same raw-HTML variable interpolated
twice. -/
def c6Src : String := "\x7b\x7b#html_x\x7d\x7d\x7b\x7b#html_x\x7d\x7d"

/-- Data context with one `html_`-prefixed key. -/
def c6Data : List (String × JsValue) := [("html_x", .str "<b>hi</b>")]

/-- `{{#each items}}{{@index}}{{/each}}`. -/
def c8Src : String :=
  "\x7b\x7b#each items\x7d\x7d\x7b\x7b@index\x7d\x7d\x7b\x7b/each\x7d\x7d"

/-- The AST `{{#each items}}{{@index}}{{/each}}` parses to. -/
def c8Ast : Node := .template [.each "each" (.var "items") [.indexRef]]

/-- The root-mode facade after its first render call was given the path
`../../z/q/t.html` (which fixes the base path to `["..", "..", "z"]`). -/
def c3Ste : SteState := setRootPrefix (steInit "./") "../../z/q/t.html"

/-- A concrete absolute project root. -/
def c3Cwd : String := "/home/user/proj"

/-- `#if` template whose condition is a filter application with an
unknown filter name (the condition throws when evaluated). -/
def c2IfTpl : Node :=
  .template [.conditional "if" (.filter (.literal (.num 1)) "nosuchfilter" [])
    [.literal (.str "body")] []]

/-- The `#not` form of the same failing-condition template. -/
def c2NotTpl : Node :=
  .template [.conditional "not" (.filter (.literal (.num 1)) "nosuchfilter" [])
    [.literal (.str "body")] []]

/-- The token list `tokenize c6Src` produces. -/
def c6Toks : List Token :=
  [⟨.DOUBLE_BRACE_OPEN, "\x7b\x7b", .nullL, 0⟩,
   ⟨.RAW_HTML, "#html_x", .strL "html_x", 2⟩,
   ⟨.DOUBLE_BRACE_CLOSE, "\x7d\x7d", .nullL, 9⟩,
   ⟨.DOUBLE_BRACE_OPEN, "\x7b\x7b", .nullL, 11⟩,
   ⟨.RAW_HTML, "#html_x", .strL "html_x", 13⟩,
   ⟨.DOUBLE_BRACE_CLOSE, "\x7d\x7d", .nullL, 20⟩,
   ⟨.EOFT, "", .nullL, 22⟩]

/-- The token list `tokenize c8Src` produces. -/
def c8Toks : List Token :=
  [⟨.DOUBLE_BRACE_OPEN, "\x7b\x7b", .nullL, 0⟩,
   ⟨.TAG_EACH, "#each", .strL "each", 2⟩,
   ⟨.IDENTIFIER, "items", .nullL, 8⟩,
   ⟨.DOUBLE_BRACE_CLOSE, "\x7d\x7d", .nullL, 13⟩,
   ⟨.DOUBLE_BRACE_OPEN, "\x7b\x7b", .nullL, 15⟩,
   ⟨.AT_INDEX, "@index", .nullL, 17⟩,
   ⟨.DOUBLE_BRACE_CLOSE, "\x7d\x7d", .nullL, 23⟩,
   ⟨.DOUBLE_BRACE_OPEN, "\x7b\x7b", .nullL, 25⟩,
   ⟨.TAG_EACH_CLOSE, "/each", .strL "each", 27⟩,
   ⟨.DOUBLE_BRACE_CLOSE, "\x7d\x7d", .nullL, 32⟩,
   ⟨.EOFT, "", .nullL, 34⟩]

/-! # Theorems

Shared helper lemmas first (the `Pres` preservation family behind the
sequential-model stack lemma `seqEachStackBalance`), then one theorem per
claim. -/

theorem presRefl (st : EvalState) : Pres st st := ⟨rfl, rfl, rfl⟩

theorem presTrans {a b c : EvalState} (h1 : Pres a b) (h2 : Pres b c) : Pres a c := by
  obtain ⟨x1, y1, z1⟩ := h1; obtain ⟨x2, y2, z2⟩ := h2
  exact ⟨x2.trans x1, y2.trans y1, z2.trans z1⟩

theorem presSetAssign (st : EvalState) (name : String) (v : JsValue) :
    Pres st (setAssign st name v) := by
  simp only [setAssign]
  split
  · split <;> exact ⟨rfl, rfl, rfl⟩
  · exact ⟨rfl, rfl, rfl⟩

theorem presPopPush (st st2 : EvalState) (item : JsValue) (index : Int) (key : String)
    (h : Pres (pushFrames st item index key) st2) : Pres st (popFrames st2) := by
  obtain ⟨x, y, z⟩ := h
  simp only [pushFrames] at x y z
  exact ⟨by simp [popFrames, x], by simp [popFrames, y], by simp [popFrames, z]⟩

set_option maxHeartbeats 4000000

mutual

theorem presNode (n : Node) (st : EvalState) : Pres st (evaluateNode n st).1 := by
  match n with
  | .literal v => simp only [evaluateNode]; exact presRefl st
  | .var name => simp only [evaluateNode]; exact presRefl st
  | .expression e => simp only [evaluateNode]; exact presExpr e st
  | .rawHtml name => simp only [evaluateNode]; exact presRefl st
  | .grouping e => simp only [evaluateNode]; exact presNode e st
  | .arrayLit es =>
    simp only [evaluateNode]
    split
    next st' vs h => have ih := presList es st; rw [h] at ih; exact ih
    next st' e h => have ih := presList es st; rw [h] at ih; exact ih
  | .objectLit props => simp only [evaluateNode]; exact presObj props [] st
  | .property o p => simp only [evaluateNode]; exact presProp o p st
  | .computedProperty o p => simp only [evaluateNode]; exact presCProp o p st
  | .filter e name args => simp only [evaluateNode]; exact presFilter e name args st
  | .set name value => simp only [evaluateNode]; exact presSet name value st
  | .nullNode => simp only [evaluateNode]; exact presRefl st
  | .each ty it body =>
    simp only [evaluateNode]
    split
    next st' e h =>
      have ih := presNode it st; rw [h] at ih; exact ih
    next st' iterable h =>
      have ih := presNode it st; rw [h] at ih
      split
      next items =>
        split
        next st'' s h2 =>
          have ih2 := presLoopArr body items 0 "" st'
          rw [h2] at ih2; exact presTrans ih ih2
        next st'' e h2 =>
          have ih2 := presLoopArr body items 0 "" st'
          rw [h2] at ih2; exact presTrans ih ih2
      next props =>
        split
        next st'' s h2 =>
          have ih2 := presLoopObj body props 0 "" st'
          rw [h2] at ih2; exact presTrans ih ih2
        next st'' e h2 =>
          have ih2 := presLoopObj body props 0 "" st'
          rw [h2] at ih2; exact presTrans ih ih2
      next => exact ih
  | .indexRef => simp only [evaluateNode]; exact presRefl st
  | .thisRef => simp only [evaluateNode]; exact presRefl st
  | .keyRef => simp only [evaluateNode]; exact presRefl st
  | .conditional ct c body alts =>
    simp only [evaluateNode]
    split
    next st' s h =>
      have ih := presCond ct c body alts st; rw [h] at ih; exact ih
    next st' e h =>
      have ih := presCond ct c body alts st; rw [h] at ih; exact ih
  | .unary op right =>
    simp only [evaluateNode]
    split
    next st' e h => have ih := presNode right st; rw [h] at ih; exact ih
    next st' v h =>
      have ih := presNode right st; rw [h] at ih
      split
      · exact ih
      · split <;> exact ih
  | .binary op left right =>
    simp only [evaluateNode]
    split
    next st' e h => have ih := presNode left st; rw [h] at ih; exact ih
    next st' l h =>
      have ih := presNode left st; rw [h] at ih
      split
      next st'' e h2 =>
        have ih2 := presNode right st'; rw [h2] at ih2; exact presTrans ih ih2
      next st'' r h2 =>
        have ih2 := presNode right st'; rw [h2] at ih2; exact presTrans ih ih2
  | .logical op left right =>
    simp only [evaluateNode]
    split
    next st' e h => have ih := presNode left st; rw [h] at ih; exact ih
    next st' l h =>
      have ih := presNode left st; rw [h] at ih
      split
      · split
        · exact presTrans ih (presNode right st')
        · exact ih
      · split
        · exact ih
        · exact presTrans ih (presNode right st')
  | .comparison op left right =>
    simp only [evaluateNode]
    split
    next st' e h => have ih := presNode left st; rw [h] at ih; exact ih
    next st' l h =>
      have ih := presNode left st; rw [h] at ih
      split
      next st'' e h2 =>
        have ih2 := presNode right st'; rw [h2] at ih2; exact presTrans ih ih2
      next st'' r h2 =>
        have ih2 := presNode right st'; rw [h2] at ih2; exact presTrans ih ih2
  | .ternary c t f =>
    simp only [evaluateNode]
    split
    next st' e h => have ih := presNode c st; rw [h] at ih; exact ih
    next st' v h =>
      have ih := presNode c st; rw [h] at ih
      split
      · exact presTrans ih (presNode t st')
      · exact presTrans ih (presNode f st')
  | .includeNode p => simp only [evaluateNode]; exact presRefl st
  | .template body =>
    simp only [evaluateNode]
    split
    next st' s h => have ih := presConcat body st; rw [h] at ih; exact ih
    next st' e h => have ih := presConcat body st; rw [h] at ih; exact ih
termination_by (sizeOf n, 0, 3)
decreasing_by all_goals (simp [Prod.lex_iff]; try omega)

theorem presExpr (e : Node) (st : EvalState) : Pres st (evaluateExpression e st).1 := by
  simp only [evaluateExpression]
  split
  next st' r h => have ih := presNode e st; rw [h] at ih; exact ih
  next st' er h => have ih := presNode e st; rw [h] at ih; exact ih
termination_by (sizeOf e, 0, 4)
decreasing_by all_goals (simp [Prod.lex_iff]; try omega)

theorem presObj (props : List (String × Node)) (acc : List (String × JsValue))
    (st : EvalState) : Pres st (evaluateObject props acc st).1 := by
  match props with
  | [] => simp only [evaluateObject]; exact presRefl st
  | (k, vn) :: rest =>
    simp only [evaluateObject]
    split
    next st' v h =>
      have ih := presNode vn st; rw [h] at ih
      exact presTrans ih (presObj rest (setKey acc k v) st')
    next st' e h => have ih := presNode vn st; rw [h] at ih; exact ih
termination_by (sizeOf props, 0, 4)
decreasing_by all_goals (simp [Prod.lex_iff]; try omega)

theorem presProp (o : Node) (p : String) (st : EvalState) :
    Pres st (evaluateProperty o p st).1 := by
  simp only [evaluateProperty]
  split
  next st' v h => have ih := presNode o st; rw [h] at ih; exact ih
  next st' e h => have ih := presNode o st; rw [h] at ih; exact ih
termination_by (sizeOf o, 0, 4)
decreasing_by all_goals (simp [Prod.lex_iff]; try omega)

theorem presCProp (o p : Node) (st : EvalState) :
    Pres st (evaluateComputedProperty o p st).1 := by
  simp only [evaluateComputedProperty]
  split
  next st' e h => have ih := presNode o st; rw [h] at ih; exact ih
  next st' objv h =>
    have ih := presNode o st; rw [h] at ih
    split
    · exact ih
    · split
      next st'' e h2 =>
        have ih2 := presNode p st'; rw [h2] at ih2; exact presTrans ih ih2
      next st'' propv h2 =>
        have ih2 := presNode p st'; rw [h2] at ih2; exact presTrans ih ih2
termination_by (sizeOf o + sizeOf p, 0, 4)
decreasing_by all_goals (simp [Prod.lex_iff]; try omega)

theorem presFilter (e : Node) (name : String) (args : List Node) (st : EvalState) :
    Pres st (evaluateFilter e name args st).1 := by
  simp only [evaluateFilter]
  split
  next st' er h => have ih := presNode e st; rw [h] at ih; exact ih
  next st' value h =>
    have ih := presNode e st; rw [h] at ih
    split
    next => exact ih
    next f =>
      split
      next st'' er h2 =>
        have ih2 := presList args st'; rw [h2] at ih2; exact presTrans ih ih2
      next st'' argVals h2 =>
        have ih2 := presList args st'; rw [h2] at ih2; exact presTrans ih ih2
termination_by (sizeOf e + sizeOf args, 0, 4)
decreasing_by all_goals (simp [Prod.lex_iff]; try omega)

theorem presSet (name : String) (valueNode : Node) (st : EvalState) :
    Pres st (evaluateSet name valueNode st).1 := by
  simp only [evaluateSet]
  split
  next st' e h => have ih := presNode valueNode st; rw [h] at ih; exact ih
  next st' value h =>
    have ih := presNode valueNode st; rw [h] at ih
    exact presTrans ih (presSetAssign st' name value)
termination_by (sizeOf valueNode, 0, 4)
decreasing_by all_goals (simp [Prod.lex_iff]; try omega)

theorem presLoopArr (body : List Node) (items : List JsValue) (index : Int) (acc : String)
    (st : EvalState) : Pres st (eachLoopArr body items index acc st).1 := by
  match items with
  | [] => simp only [eachLoopArr]; exact presRefl st
  | item :: rest =>
    simp only [eachLoopArr]
    split
    next st2 vs h =>
      have ih := presList body (pushFrames st item index (toString index))
      rw [h] at ih
      have hpop := presPopPush st st2 item index (toString index) ih
      exact presTrans hpop
        (presLoopArr body rest (index + 1) (acc ++ jsJoin vs "") (popFrames st2))
    next st2 e h =>
      have ih := presList body (pushFrames st item index (toString index))
      rw [h] at ih
      exact presPopPush st st2 item index (toString index) ih
termination_by (sizeOf body, items.length, 2)
decreasing_by all_goals (simp [Prod.lex_iff]; try omega)

theorem presLoopObj (body : List Node) (entries : List (String × JsValue)) (index : Int)
    (acc : String) (st : EvalState) : Pres st (eachLoopObj body entries index acc st).1 := by
  match entries with
  | [] => simp only [eachLoopObj]; exact presRefl st
  | (key, value) :: rest =>
    simp only [eachLoopObj]
    split
    next st2 vs h =>
      have ih := presList body (pushFrames st value index key)
      rw [h] at ih
      have hpop := presPopPush st st2 value index key ih
      exact presTrans hpop
        (presLoopObj body rest (index + 1) (acc ++ jsJoin vs "") (popFrames st2))
    next st2 e h =>
      have ih := presList body (pushFrames st value index key)
      rw [h] at ih
      exact presPopPush st st2 value index key ih
termination_by (sizeOf body, entries.length, 2)
decreasing_by all_goals (simp [Prod.lex_iff]; try omega)

theorem presCond (conditionType : String) (condition : Node) (body : List Node)
    (alternates : List (String × Option Node × List Node)) (st : EvalState) :
    Pres st (evaluateConditional conditionType condition body alternates st).1 := by
  simp only [evaluateConditional]
  split
  · split
    next st' e h => have ih := presNode condition st; rw [h] at ih; exact ih
    next st' c h =>
      have ih := presNode condition st; rw [h] at ih
      split
      · exact presTrans ih (presConcat body st')
      · exact ih
  · split
    · split
      next st' e h => have ih := presNode condition st; rw [h] at ih; exact ih
      next st' c h =>
        have ih := presNode condition st; rw [h] at ih
        split
        · exact presTrans ih (presConcat body st')
        · exact presTrans ih (presAlts alternates st')
    · exact presRefl st
termination_by (sizeOf condition + sizeOf body + sizeOf alternates, 0, 4)
decreasing_by all_goals (simp [Prod.lex_iff]; try omega)

theorem presAlts (alts : List (String × Option Node × List Node)) (st : EvalState) :
    Pres st (evalAlternates alts st).1 := by
  match alts with
  | [] => simp only [evalAlternates]; exact presRefl st
  | (ct, some c, abody) :: rest =>
    rw [evalAlternates.eq_def]
    dsimp only
    split
    · exact presConcat abody st
    · split
      next st' e h => have ih := presNode c st; rw [h] at ih; exact ih
      next st' v h =>
        have ih := presNode c st; rw [h] at ih
        split
        · exact presTrans ih (presConcat abody st')
        · exact presTrans ih (presAlts rest st')
  | (ct, none, abody) :: rest =>
    rw [evalAlternates.eq_def]
    dsimp only
    split
    · exact presConcat abody st
    · exact presRefl st
termination_by (sizeOf alts, 0, 2)
decreasing_by all_goals (simp [Prod.lex_iff]; try omega)

theorem presConcat (l : List Node) (st : EvalState) : Pres st (evalConcat l st).1 := by
  match l with
  | [] => simp only [evalConcat]; exact presRefl st
  | n :: rest =>
    simp only [evalConcat]
    split
    next st' e h => have ih := presNode n st; rw [h] at ih; exact ih
    next st' v h =>
      have ih := presNode n st; rw [h] at ih
      split
      next st'' s h2 =>
        have ih2 := presConcat rest st'; rw [h2] at ih2; exact presTrans ih ih2
      next st'' e h2 =>
        have ih2 := presConcat rest st'; rw [h2] at ih2; exact presTrans ih ih2
termination_by (sizeOf l, 0, 2)
decreasing_by all_goals (simp [Prod.lex_iff]; try omega)

theorem presList (l : List Node) (st : EvalState) : Pres st (evalNodeList l st).1 := by
  match l with
  | [] => simp only [evalNodeList]; exact presRefl st
  | n :: rest =>
    simp only [evalNodeList]
    split
    next st' e h => have ih := presNode n st; rw [h] at ih; exact ih
    next st' v h =>
      have ih := presNode n st; rw [h] at ih
      split
      next st'' vs h2 =>
        have ih2 := presList rest st'; rw [h2] at ih2; exact presTrans ih ih2
      next st'' e h2 =>
        have ih2 := presList rest st'; rw [h2] at ih2; exact presTrans ih ih2
termination_by (sizeOf l, 0, 2)
decreasing_by all_goals (simp [Prod.lex_iff]; try omega)

end

/-! ### Helper lemmas for the index-concatenation and round-trip claims -/

/-- The three `finally` pops exactly cancel the three pushes. -/
theorem popPushCancel (st : EvalState) (item : JsValue) (index : Int) (key : String) :
    popFrames (pushFrames st item index key) = st := rfl

/-- `"".join` of one element. -/
theorem intercalateSingleton (sep x : String) : sep.intercalate [x] = x := rfl

/-- An `each` body consisting of the single `@index` reference appends
one decimal index per item and restores the state. -/
theorem eachIndexLoop (items : List JsValue) (index : Int) (acc : String) (st : EvalState) :
    eachLoopArr [Node.indexRef] items index acc st =
      (st, Except.ok (acc ++ idxStrings index items.length)) := by
  induction items generalizing index acc with
  | nil => simp [eachLoopArr]
  | cons item rest ih =>
    have hl : evalNodeList [Node.indexRef] (pushFrames st item index (toString index)) =
        (pushFrames st item index (toString index), Except.ok [JsValue.num index]) := by
      simp [evalNodeList, evaluateNode]
    simp only [eachLoopArr, hl, popPushCancel]
    rw [ih]
    simp [idxStrings, String.append_assoc, intercalateSingleton]

/-- Evaluating a one-literal template returns the literal. -/
theorem evalLiteralTemplate (s : String) (data : List (String × JsValue)) :
    evalAst (.template [.literal (.str s)]) data = .ok s := by
  simp [evalAst, evaluateNode, evalConcat]

/-- Parsing a lone `STRING` token gives a one-literal template. -/
theorem parseStringToken (s : String) (n : Nat) :
    parseTokens [⟨.STRING, s, .strL s, 0⟩, ⟨.EOFT, "", .nullL, n⟩] =
      .ok (.template [.literal (.str s)]) := rfl

/-- Character-level reading of `noBrace`: no index of the character list
carries `\x7b\x7b`. -/
theorem noBraceAt (l : List Char)
    (h : charsContains ['\x7b', '\x7b'] l = false) :
    ∀ i, ¬(tkCharAt l i = '\x7b' ∧ tkCharAt l (i + 1) = '\x7b') := by
  induction l with
  | nil => intro i hc; simp [tkCharAt] at hc
  | cons c rest ih =>
    intro i hc
    simp only [charsContains, Bool.or_eq_false_iff] at h
    match i with
    | 0 =>
        have hc1 : c = '\x7b' := by simpa [tkCharAt] using hc.1
        have hc2 : tkCharAt rest 0 = '\x7b' := by simpa [tkCharAt] using hc.2
        match rest with
        | [] => simp [tkCharAt] at hc2
        | d :: rest2 =>
            have hd : d = '\x7b' := by simpa [tkCharAt] using hc2
            have := h.1
            simp [hc1, hd] at this
    | i + 1 =>
        exact ih h.2 i (by simpa [tkCharAt] using hc)

/-- `tkTextLoop` with no `\x7b\x7b` in the source and enough fuel walks to
the end of the input. -/
theorem textLoopRuns (fuel : Nat) :
    ∀ st : TokState, st.current ≤ st.source.length →
    st.source.length - st.current ≤ fuel →
    (∀ i, ¬(tkCharAt st.source i = '\x7b' ∧ tkCharAt st.source (i + 1) = '\x7b')) →
    tkTextLoop fuel st =
      { st with current := st.source.length,
                position := st.position + (st.source.length - st.current) } := by
  induction fuel with
  | zero =>
      intro st hle hfuel hnb
      have hlen : st.source.length = st.current := by omega
      cases st with
      | mk source tokens start current position iie bc =>
          simp only [] at hlen
          simp only [tkTextLoop, TokState.mk.injEq, true_and, and_true]
          omega
  | succ fuel ih =>
      intro st hle hfuel hnb
      simp only [tkTextLoop]
      split
      next hend =>
        have hlen : st.source.length ≤ st.current := by simpa [tkIsAtEnd] using hend
        cases st with
        | mk source tokens start current position iie bc =>
            simp only [] at hlen hle
            simp only [TokState.mk.injEq, true_and, and_true]
            omega
      next hend =>
        split
        next hbr =>
          exfalso
          have hlt : st.current < st.source.length := by
            simp [tkIsAtEnd] at hend; omega
          apply hnb st.current
          constructor
          · have := hbr.1
            simpa [tkPeek, tkIsAtEnd, Nat.not_le.mpr hlt] using this
          · have h2 := hbr.2
            by_cases h3 : st.source.length ≤ st.current + 1
            · simp [tkPeekNext, h3] at h2
            · simpa [tkPeekNext, h3] using h2
        next hbr =>
          have hlt : st.current < st.source.length := by
            simp [tkIsAtEnd] at hend; omega
          have hrec := ih (tkAdvance st).2 (by simp; omega) (by simp; omega)
            (by simpa [tkAdvance] using hnb)
          rw [hrec]
          cases st with
          | mk source tokens start current position iie bc =>
              simp only [] at hlt
              simp only [tkAdvance, TokState.mk.injEq, true_and, and_true]
              omega

/-- Tokenizing nonempty brace-free text yields one `STRING` token and
`EOF`. -/
theorem tokenizeNoBrace (c : Char) (rest : List Char)
    (h : charsContains ['\x7b', '\x7b'] (c :: rest) = false) :
    tokenize ⟨c :: rest⟩ =
      .ok [⟨.STRING, ⟨c :: rest⟩, .strL ⟨c :: rest⟩, 0⟩,
           ⟨.EOFT, "", .nullL, (c :: rest).length⟩] := by
  have hnb := noBraceAt (c :: rest) h
  have hloop := textLoopRuns ((c :: rest).length + 1)
      { source := c :: rest, tokens := [], start := 0, current := 0,
        position := 0, isInExpression := false, braceCount := 0 }
      (by simp) (by simp) hnb
  have hsl : (⟨c :: rest⟩ : String).length = rest.length + 1 := rfl
  unfold tokenize
  simp only [hsl, List.length_cons]
  rw [show rest.length + 1 + 2 = (rest.length + 2) + 1 from rfl]
  rw [tkScanLoop]
  simp only [List.length_cons] at hloop
  simp [tkScanText, tkScanLoop, hloop]

/-! ### Claim theorems -/

/-- C9: for every template source string that contains no `\x7b\x7b`
sequence, tokenizing, parsing and evaluating it (the
`STE.#processExpressions` pipeline) returns the source text unchanged,
byte-for-byte, whatever the data context. -/
theorem c9_literal_roundtrip (s : String) (data : List (String × JsValue))
    (h : noBrace s = true) :
    processExpressions s data = .ok s := by
  obtain ⟨l⟩ := s
  match l with
  | [] =>
      have hred : processExpressions ⟨[]⟩ data = evalAst (.template []) data := rfl
      rw [hred]
      simp [evalAst, evaluateNode, evalConcat]
  | c :: rest =>
      have hcc : charsContains ['\x7b', '\x7b'] (c :: rest) = false := by
        simpa [noBrace, strContains, Decidable.imp_iff_not_or] using h
      have ht := tokenizeNoBrace c rest hcc
      simp only [processExpressions, ht]
      rw [parseStringToken]
      exact evalLiteralTemplate ⟨c :: rest⟩ data

/-- Witness for C9 at a concrete brace-free source. -/
theorem c9_literal_roundtrip_witness :
    noBrace "hello <b>world</b>, 100% plain text" = true ∧
    processExpressions "hello <b>world</b>, 100% plain text" [("x", .num 1)] =
      .ok "hello <b>world</b>, 100% plain text" :=
  ⟨by decide, c9_literal_roundtrip "hello <b>world</b>, 100% plain text"
      [("x", .num 1)] (by decide)⟩

set_option maxRecDepth 16000

/-! ### Concrete pipeline runs for the remaining claims -/

theorem c8_tokens : tokenize c8Src = .ok c8Toks := rfl

theorem c8_parse : parseTokens c8Toks = .ok c8Ast := rfl

/-- C8: for every array bound to `items`, running the full pipeline
(tokenize, parse, evaluate) on the template
`\x7b\x7b#each items\x7d\x7d\x7b\x7b@index\x7d\x7d\x7b\x7b/each\x7d\x7d`
yields exactly the concatenation of the decimal indices `0 … N-1` in
order, regardless of the items' contents (`idxStrings 0 N` is that
concatenation). -/
theorem c8_index_concatenation (items : List JsValue) :
    processExpressions c8Src [("items", .arr items)] =
      .ok (idxStrings 0 items.length) := by
  have hvar : evaluateNode (.var "items") (initState [("items", .arr items)]) =
      (initState [("items", .arr items)], .ok (.arr items)) := by
    simp +decide [evaluateNode]
  simp only [processExpressions, c8_tokens, c8_parse]
  simp only [evalAst, c8Ast, evaluateNode, evalConcat, hvar, eachIndexLoop]
  simp

theorem c1EachAsync : coEvalAst 16 c1EachTpl c1Data = .ok "" := by
  simp +decide [coEvalAst, coEvalNode, coEvalExpression, coEvalSet, coLoopArr,
    coChildren, coConcat, promiseAll, phase1, schedRound, allSettled, sched,
    firstError, collectAll, driveCoR, Co.bind, Co.pure, Co.yieldVal, Co.await,
    CoR.contin, CoSt.contin, c1EachTpl, c1Data]

theorem c1EachSeq : evalAst c1EachTpl c1Data = .ok "1" := by
  simp +decide [evalAst, evaluateNode, evalNodeList, evalConcat, evaluateSet,
    evaluateExpression, eachLoopArr, c1EachTpl, c1Data]

theorem c1TplAsync : coEvalAst 16 c1SeqTpl [] = .ok "1" := by
  simp +decide [coEvalAst, coEvalNode, coEvalExpression, coEvalSet, coLoopArr,
    coChildren, coConcat, promiseAll, phase1, schedRound, allSettled, sched,
    firstError, collectAll, driveCoR, Co.bind, Co.pure, Co.yieldVal, Co.await,
    CoR.contin, CoSt.contin, c1SeqTpl]

theorem c1TplSeq : evalAst c1SeqTpl [] = .ok "1" := by
  simp +decide [evalAst, evaluateNode, evalNodeList, evalConcat, evaluateSet,
    evaluateExpression, eachLoopArr, c1SeqTpl]

/-- C1, counterexample: on the each-body sibling pair `#set x = 1` then
`x` over a one-element array, the JavaScript-faithful coroutine
evaluator renders `""` — the `#set` write lands in a microtask after the
sibling has already read `x` — while the sequential reference evaluator
renders `"1"`.  The implementation is therefore not equivalent to a
sequential reference evaluator on `each` bodies. -/
theorem c1_each_set_read_counterexample :
    coEvalAst 16 c1EachTpl c1Data = .ok "" ∧
    evalAst c1EachTpl c1Data = .ok "1" :=
  ⟨c1EachAsync, c1EachSeq⟩

/-- C1 (amended): sibling statements of a template body run strictly
sequentially — the coroutine model agrees with the sequential reference
on the top-level pair `#set x = 1` then `x` — but the children of an
`each` body are all started by `Promise.all` before any completes, and
there the two models diverge (`""` against `"1"`). -/
theorem c1_sequential_template_concurrent_each :
    (coEvalAst 16 c1SeqTpl [] = .ok "1" ∧ evalAst c1SeqTpl [] = .ok "1") ∧
    (coEvalAst 16 c1EachTpl c1Data = .ok "" ∧ evalAst c1EachTpl c1Data = .ok "1") :=
  ⟨⟨c1TplAsync, c1TplSeq⟩, ⟨c1EachAsync, c1EachSeq⟩⟩

theorem c2IfTrace : evalAst c2IfTpl [] = .error "Unknown filter: nosuchfilter" := by
  simp +decide [evalAst, evaluateNode, evalConcat, evaluateConditional, evaluateFilter,
    evalAlternates, evalNodeList, c2IfTpl]

theorem c2NotTrace : evalAst c2NotTpl [] = .error "Unknown filter: nosuchfilter" := by
  simp +decide [evalAst, evaluateNode, evalConcat, evaluateConditional, evaluateFilter,
    evalAlternates, evalNodeList, c2NotTpl]

/-- C2, counterexample: an `#if` whose condition raises an internal
evaluation exception (here an unknown filter) aborts the whole render
with that error — the condition is not treated as false and the render
does not fall through to the alternates. -/
theorem c2_condition_error_aborts :
    evalAst c2IfTpl [] = .error "Unknown filter: nosuchfilter" := c2IfTrace

/-- C2 (amended): in the AST evaluator a condition error propagates out
of both `#if` and `#not` (`evaluateConditional` has no catch), while the
treat-exception-as-false policy lives only in the standalone
`evaluateCondition` helper of the `preprocessConditionals` module: there
a condition whose resolution throws (property access on a number)
evaluates to `false`. -/
theorem c2_condition_swallow_amended :
    (evalAst c2IfTpl [] = .error "Unknown filter: nosuchfilter" ∧
     evalAst c2NotTpl [] = .error "Unknown filter: nosuchfilter") ∧
    (evaluateCondition "a.b" [("a", .num 5)] = false ∧
     resolveValue "a.b" [("a", .num 5)] =
       .error "Cannot use 'in' operator to search for 'b'") :=
  ⟨⟨c2IfTrace, c2NotTrace⟩, ⟨rfl, rfl⟩⟩

/-- C3 (the code bug exhibited in Lean): in root mode, after a first
render with path `../../z/q/t.html` has fixed the stored base path, the
bare include path `w.html` resolves to `/home/z/w.html` — outside the
project root `/home/user/proj` — with no path-traversal error: the root
check only guards the `./`/`../`-prefixed branch of `STE.#resolvePath`. -/
theorem c3_root_escape_unchecked :
    c3Ste.isRootMode = true ∧
    steResolvePath c3Ste c3Cwd "w.html" = .ok "/home/z/w.html" ∧
    jsStartsWith "/home/z/w.html" (pathResolve c3Cwd "./") = false := by
  refine ⟨rfl, ?_, by decide⟩
  rfl

/-- The sequential reference evaluator restores the three stacks across
every `each` node, on normal and error exits alike — the invariant the
specification asserts (via the mutual `presNode` induction).  The
asynchronous engine violates it on the eager-rejection path — see
`c4_each_stack_leak`; this sequential baseline is kept to delimit exactly
where the program diverges from it. -/
theorem seqEachStackBalance (eachType : String) (iterable : Node)
    (body : List Node) (st : EvalState) :
    (evaluateNode (.each eachType iterable body) st).1.contextStack = st.contextStack ∧
    (evaluateNode (.each eachType iterable body) st).1.indexStack = st.indexStack ∧
    (evaluateNode (.each eachType iterable body) st).1.keyStack = st.keyStack :=
  presNode (.each eachType iterable body) st

/-- C4 (the code bug exhibited in Lean): `Promise.all` rejects eagerly,
so when one body child throws while a sibling nested `each` is still
suspended holding its pushed frames, the outer iteration's `finally` pops
the sibling's frames instead of its own and the `each` settles with all
three stacks one frame longer than at entry — the push/pop pairing the
specification promises on exceptional exit does not hold in the program
(`seqEachStackBalance` shows the sequential restriction does satisfy
it). -/
theorem c4_each_stack_leak :
    (coRunNode 16 c4EachNode (initState [])).2 =
      some (.error "Cannot iterate over 7") ∧
    ((coRunNode 16 c4EachNode (initState [])).1.contextStack.length = 2 ∧
     (coRunNode 16 c4EachNode (initState [])).1.indexStack.length = 1 ∧
     (coRunNode 16 c4EachNode (initState [])).1.keyStack.length = 1) ∧
    ((initState ([] : List (String × JsValue))).contextStack.length = 1 ∧
     (initState ([] : List (String × JsValue))).indexStack.length = 0 ∧
     (initState ([] : List (String × JsValue))).keyStack.length = 0) := by
  simp +decide [coRunNode, coEvalNode, coEvalExpression, coEvalSet, coLoopArr,
    coChildren, coConcat, promiseAll, phase1, schedRound, allSettled, sched,
    firstError, collectAll, driveCoR, Co.bind, Co.pure, Co.yieldVal, Co.await,
    CoR.contin, CoSt.contin, c4EachNode]

/-- C5 (the code bug exhibited in Lean): the mapping-form key is
unreachable — tokenizing `\x7b\x7b#each obj\x7d\x7d\x7b\x7b@key\x7d\x7d\x7b\x7b/each\x7d\x7d`
throws `Unexpected @ syntax` (only `@index` is tokenized), and even a
parsed `key_ref` node evaluates to the `Unknown node type` error, since
the evaluator's dispatch has no `key_ref` case. -/
theorem c5_at_key_dead_end :
    tokenize c5Src = .error "Unexpected @ syntax at position 16" ∧
    ∀ st : EvalState, evaluateNode .keyRef st = (st, .error "Unknown node type: key_ref") :=
  ⟨rfl, fun st => by simp [evaluateNode]⟩

theorem c6_tokens : tokenize c6Src = .ok c6Toks := rfl

theorem c6_parse : parseTokens c6Toks =
    .ok (.template [.expression (.rawHtml "#html_x"),
                    .expression (.rawHtml "#html_x")]) := rfl

/-- C6 (the code bug exhibited in Lean): rendering
`\x7b\x7b#html_x\x7d\x7d\x7b\x7b#html_x\x7d\x7d` with
`html_x = "<b>hi</b>"` returns `<b>hi</b>__HTML_0__`: the final restore
uses `result.replace(marker, value)`, which substitutes only the first
occurrence, so the second marker occurrence survives in the output. -/
theorem c6_marker_survives_restore :
    renderModel c6Src c6Data = .ok "<b>hi</b>__HTML_0__" ∧
    strContains "<b>hi</b>__HTML_0__" "__HTML_0__" = true := by
  constructor
  · simp +decide [renderModel, c6_tokens, c6_parse, c6Data, evaluateNode,
      evaluateExpression, evalConcat]
  · decide

/-- C7: a variable name that resolves neither in the current loop
context nor in global data (nor in the `html_` side table) renders as
the empty string: `resolveVariable` yields JS `undefined`,
`evaluateVariable` maps it to `""`, and the enclosing expression node
returns `""` — the texts `undefined` and `null` are never emitted. -/
theorem c7_unresolved_renders_empty (st : EvalState) (name : String)
    (h : UnresolvedName st name) :
    resolveVariable st name = .undef ∧
    evaluateVariable st name = .str "" ∧
    evaluateNode (.expression (.var name)) st = (st, .ok (.str "")) := by
  obtain ⟨h1, h2, h3, h4, h5, h6⟩ := h
  have hctx : (jsIsObjecty st.currentContext && jsHasProp st.currentContext name) = false := by
    rw [h1, Bool.and_false]
  have hlk : st.globalData.lookup name = none := by
    cases hlq : st.globalData.lookup name with
    | none => rfl
    | some v => rw [hlq] at h2; simp at h2
  have hwc : walkPath st.currentContext (splitOnDot name) = none :=
    Option.isNone_iff_eq_none.mp h4
  have hwg : walkPath (.obj st.globalData) (splitOnDot name) = none :=
    Option.isNone_iff_eq_none.mp h5
  have hlk6 : st.htmlVars.lookup name = none := by
    cases hlq : st.htmlVars.lookup name with
    | none => rfl
    | some v => rw [hlq] at h6; simp at h6
  have hif : (if jsIsObjecty st.currentContext = true
      then walkPath st.currentContext (splitOnDot name) else none) = none := by
    rw [hwc]; exact ite_self none
  have hres : resolveVariable st name = .undef := by
    simp only [resolveVariable, hctx, hlk, hif, hwg, h3, Option.isSome_none,
      Option.getD_none, Bool.false_eq_true, Bool.not_true, if_false]
    simp only [JsValue.isUndef, Bool.not_true, Bool.false_eq_true, if_false, ite_self]
  have hev : evaluateVariable st name = .str "" := by
    simp only [evaluateVariable, hres, hlk6, JsValue.isUndef, ite_self, if_true]
  refine ⟨hres, hev, ?_⟩
  simp only [evaluateNode, evaluateExpression, hev]
  simp

/-- Witness for C7 at a concrete state and name. -/
theorem c7_unresolved_renders_empty_witness :
    UnresolvedName (initState [("y", .num 1)]) "x" ∧
    (resolveVariable (initState [("y", .num 1)]) "x" = .undef ∧
     evaluateVariable (initState [("y", .num 1)]) "x" = .str "" ∧
     evaluateNode (.expression (.var "x")) (initState [("y", .num 1)]) =
       (initState [("y", .num 1)], .ok (.str ""))) :=
  ⟨⟨rfl, rfl, rfl, rfl, rfl, rfl⟩,
   c7_unresolved_renders_empty (initState [("y", .num 1)]) "x"
     ⟨rfl, rfl, rfl, rfl, rfl, rfl⟩⟩

/-- C10: every path not ending in `.html` is rejected by resolution
before any file is read (the guard fails for every file system), and an
`#include` whose path expression is not a string fails with the
`Include path must be a string` error. -/
theorem c10_html_only_and_string_guard (st : SteState) (cwd : String)
    (fs : String → Option String) (path : String)
    (h : strEndsWith path ".html" = false)
    (v : JsValue) (hv : notAString v = true) :
    steReadFile st cwd fs path =
      .error "File reading failed: Invalid file type. Only HTML files are supported." ∧
    includePathGuard v = .error "Include path must be a string" := by
  constructor
  · have hres : steResolvePath st cwd path =
        .error "Invalid file type. Only HTML files are supported." := by
      rw [steResolvePath, h]; simp
    simp only [steReadFile, hres]
    rfl
  · cases v with
    | str s => simp at hv
    | undef => rfl
    | null => rfl
    | bool b => rfl
    | num n => rfl
    | arr l => rfl
    | obj o => rfl

/-- Witness for C10 at a concrete non-HTML path and non-string value. -/
theorem c10_html_only_and_string_guard_witness :
    (strEndsWith "style.css" ".html" = false ∧ notAString (.num 3) = true) ∧
    (steReadFile (steInit "./") "/proj" (fun _ => none) "style.css" =
       .error "File reading failed: Invalid file type. Only HTML files are supported." ∧
     includePathGuard (.num 3) = .error "Include path must be a string") :=
  ⟨⟨by decide, rfl⟩,
   c10_html_only_and_string_guard (steInit "./") "/proj" (fun _ => none)
     "style.css" (by decide) (.num 3) rfl⟩

end LiteNode
